import Mathlib

/-!
Shallow embedding of the schema-normalization adapter in
src/xiaohongshu_analyst.py (function standardize_data, lines 10-96),
together with proofs about the claims of the specification.

A pandas DataFrame is modelled as an ordered list of columns, each a pair
of a column name and the list of its cell values (pandas allows duplicate
column names, e.g. after a rename that sends two source columns to the
same target, so the model must as well).  Cell values are modelled by the
inductive type Value: a rational number stands for a finite float, str for
a string cell, nan for a missing value / NaN, and inf / ninf for the two
float infinities (reachable through the elementwise division on line 91 of
the source when a divisor row is 0).

Fallible pandas operations are modelled in the Except monad:
selecting a missing column raises KeyError, and passing a duplicated
column selection (a DataFrame, not a Series) to pd.to_numeric or to
Series arithmetic raises TypeError; both are modelled as Except.error
with the corresponding string.
-/

set_option autoImplicit false

namespace XhsAnalyst

/-- A cell value: finite number, string, missing (NaN), or an infinity. -/
inductive Value where
  | num (q : ℚ)
  | str (s : String)
  | nan
  | inf
  | ninf
deriving DecidableEq, Repr

/-- A DataFrame: ordered columns, each a name with its list of cell values.
Duplicate names are representable, as in pandas after a many-to-one rename. -/
abbrev DF := List (String × List Value)

/-! ### Numeric string parsing (pandas pd.to_numeric on a string cell)

The parser accepts an optional sign, a decimal mantissa with an optional
single decimal point, and an optional exponent part, after stripping
surrounding whitespace; anything else is unparseable.  This mirrors the
numeric-literal grammar pd.to_numeric accepts for string cells. -/

/-- Value of a decimal digit character, none for a non-digit. -/
def digitVal (c : Char) : Option ℕ :=
  if '0' ≤ c ∧ c ≤ '9' then some (c.toNat - '0'.toNat) else none

/-- Read a run of decimal digits as a natural number; none on any non-digit. -/
def digitsToNat : List Char → ℕ → Option ℕ
  | [], acc => some acc
  | c :: cs, acc =>
    match digitVal c with
    | some d => digitsToNat cs (acc * 10 + d)
    | none => none

/-- Parse an unsigned decimal mantissa: digits with an optional single point.
At least one digit must be present. -/
def parseMantissa (cs : List Char) : Option ℚ :=
  match cs.splitOn '.' with
  | [ip] =>
    if ip.isEmpty then none else (digitsToNat ip 0).map (fun n => (n : ℚ))
  | [ip, fp] =>
    if ip.isEmpty && fp.isEmpty then none
    else
      match digitsToNat ip 0, digitsToNat fp 0 with
      | some i, some f => some ((i : ℚ) + (f : ℚ) / (10 : ℚ) ^ fp.length)
      | _, _ => none
  | _ => none

/-- Parse with an optional leading sign, given a parser for the unsigned part. -/
def parseSign (core : List Char → Option ℚ) : List Char → Option ℚ
  | '+' :: rest => core rest
  | '-' :: rest => (core rest).map Neg.neg
  | cs => core cs

/-- Ten to an integer power, as a rational. -/
def pow10 (e : ℤ) : ℚ :=
  if 0 ≤ e then (10 : ℚ) ^ e.toNat else 1 / (10 : ℚ) ^ (-e).toNat

/-- Parse an exponent part: optional sign and a nonempty digit run. -/
def parseExpPart (cs : List Char) : Option ℤ :=
  match cs with
  | '+' :: rest => (if rest.isEmpty then none else digitsToNat rest 0).map (fun n => (n : ℤ))
  | '-' :: rest => (if rest.isEmpty then none else digitsToNat rest 0).map (fun n => -(n : ℤ))
  | rest => (if rest.isEmpty then none else digitsToNat rest 0).map (fun n => (n : ℤ))

/-- Parse a string cell as a number, as pd.to_numeric would; none if the
string is not a numeric literal. -/
def parseNum (s : String) : Option ℚ :=
  let cs := s.trim.toList
  let mant := cs.takeWhile (fun c => !(c == 'e' || c == 'E'))
  match cs.dropWhile (fun c => !(c == 'e' || c == 'E')) with
  | [] => parseSign parseMantissa mant
  | _ :: ex =>
    match parseSign parseMantissa mant, parseExpPart ex with
    | some m, some e => some (m * pow10 e)
    | _, _ => none

/-! ### Float-style arithmetic on cell values -/

/-- pd.to_numeric(x, errors=coerce) on a single cell: numbers and
infinities pass through, parseable strings become numbers, everything
else becomes NaN. -/
def toNumericVal : Value → Value
  | .num q => .num q
  | .str s =>
    match parseNum s with
    | some q => .num q
    | none => .nan
  | .nan => .nan
  | .inf => .inf
  | .ninf => .ninf

/-- Series.fillna(0) on a single cell: NaN becomes 0. -/
def fillna0 : Value → Value
  | .nan => .num 0
  | v => v

/-- pd.to_numeric(x, errors=coerce).fillna(0) on a single cell (source
lines 68-69 and 85). -/
def coerce0 (v : Value) : Value := fillna0 (toNumericVal v)

/-- Elementwise float addition (Series +). -/
def addVal : Value → Value → Value
  | .num a, .num b => .num (a + b)
  | .num _, .inf => .inf
  | .inf, .num _ => .inf
  | .num _, .ninf => .ninf
  | .ninf, .num _ => .ninf
  | .inf, .inf => .inf
  | .ninf, .ninf => .ninf
  | _, _ => .nan

/-- Elementwise float division (Series /), IEEE-style: x/0 is an infinity
for nonzero x and NaN for 0/0. -/
def divVal : Value → Value → Value
  | .num a, .num b =>
    if b = 0 then (if 0 < a then .inf else if a < 0 then .ninf else .nan)
    else .num (a / b)
  | .num _, .inf => .num 0
  | .num _, .ninf => .num 0
  | .inf, .num b => if 0 ≤ b then .inf else .ninf
  | .ninf, .num b => if 0 ≤ b then .ninf else .inf
  | _, _ => .nan

/-- Series.sum() with skipna=True: fold float addition over the non-NaN
cells, starting from 0. -/
def sumVal (vs : List Value) : Value :=
  vs.foldl (fun acc v => match v with | .nan => acc | _ => addVal acc v) (.num 0)

/-- Float equality test against 0 (the guard sum == 0 on line 88). -/
def valEq0 : Value → Bool
  | .num q => q == 0
  | _ => false

/-- Float test for being strictly positive (the guards sum > 0 on line 88). -/
def valPos : Value → Bool
  | .num q => decide (0 < q)
  | .inf => true
  | _ => false

/-- Float strict greater-than (the guard on line 90). -/
def valGt : Value → Value → Bool
  | .num a, .num b => decide (b < a)
  | .inf, .num _ => true
  | .inf, .ninf => true
  | .num _, .ninf => true
  | _, _ => false

/-! ### DataFrame operations -/

/-- The list of column names (df.columns.tolist()). -/
def colNames (d : DF) : List String := d.map Prod.fst

/-- Column-name membership (the Python test: name in df.columns). -/
def hasCol (d : DF) (c : String) : Bool := d.any (fun e => e.1 == c)

/-- Select a column as a Series (df[c] used in a Series position): error
KeyError when no column has that name, error TypeError when several do
(pandas then yields a DataFrame, which the Series-consuming call sites of
the source reject with a TypeError). -/
def getCol (d : DF) (c : String) : Except String (List Value) :=
  match d.filter (fun e => e.1 == c) with
  | [] => .error "KeyError"
  | [e] => .ok e.2
  | _ => .error "TypeError"

/-- Column assignment df[c] = vs: replace the values of every column named
c (keeping names and order), or append a new column when none exists. -/
def setCol (d : DF) (c : String) (vs : List Value) : DF :=
  if hasCol d c then d.map (fun e => if e.1 == c then (e.1, vs) else e)
  else d ++ [(c, vs)]

/-- Number of rows (the length of the index, read off the first column). -/
def nRows : DF → ℕ
  | [] => 0
  | e :: _ => e.2.length

/-- Strip whitespace from every column name (source line 19). -/
def stripDF (d : DF) : DF := d.map (fun e => (e.1.trim, e.2))

/-! ### Platform detection (source lines 22-39) -/

/-- Substring test (the Python expression: pat in s). -/
def listIsPref : List Char → List Char → Bool
  | [], _ => true
  | _ :: _, [] => false
  | a :: as, b :: bs => a == b && listIsPref as bs

/-- Substring occurrence over character lists. -/
def containsChars (pat : List Char) : List Char → Bool
  | [] => listIsPref pat []
  | c :: cs => listIsPref pat (c :: cs) || containsChars pat cs

/-- The Python substring test: pat in s. -/
def containsStr (s pat : String) : Bool := containsChars pat.toList s.toList

/-- PlatformA (Xiaohongshu) signature: some column name contains the
substring 笔记标题 (source line 23). -/
def isXHSsig (names : List String) : Bool :=
  names.any (fun c => containsStr c "笔记标题")

/-- PlatformB (WeChat Channels) signature: some of the three exact names
视频描述 / 动态描述 / 内容 is a column (source line 39). -/
def isWCsig (names : List String) : Bool :=
  (["视频描述", "动态描述", "内容"]).any (fun x => names.contains x)

/-- The platform label of the Xiaohongshu branch (source line 24). -/
def xhs_label : String := "小红书 (Xiaohongshu)"

/-- The platform label of the WeChat Channels branch (source line 40). -/
def wc_label : String := "视频号 (WeChat Channels)"

/-- The detection classifier of the source, lines 22-39 and 72-73, as a
function of the (already stripped) column names. -/
def detectPlatform (names : List String) : String :=
  if isXHSsig names then xhs_label
  else if isWCsig names then wc_label
  else "Unknown"

/-! ### Rename tables (source lines 25-35 and 42-61) -/

/-- The Xiaohongshu rename table of source lines 25-35, in dict order. -/
def rename_map_xhs : List (String × String) :=
  [("笔记标题", "标题"), ("曝光", "曝光"), ("观看量", "观看"),
   ("封面点击率", "CTR"), ("点赞", "点赞"), ("评论", "评论"),
   ("收藏", "收藏"), ("分享", "分享"), ("涨粉", "涨粉")]

/-- The WeChat Channels rename table of source lines 42-61, in dict order. -/
def rename_map_wc : List (String × String) :=
  [("视频描述", "标题"), ("动态描述", "标题"), ("内容", "标题"),
   ("播放量", "观看"), ("浏览次数", "观看"), ("观看次数", "观看"),
   ("喜欢", "点赞"), ("点赞次数", "点赞"),
   ("评论量", "评论"), ("评论次数", "评论"),
   ("收藏次数", "收藏"),
   ("分享量", "分享"), ("转发次数", "分享"), ("分享次数", "分享"),
   ("关注量", "涨粉"), ("净增关注", "涨粉"),
   ("推荐", "曝光"), ("推荐次数", "曝光")]

/-- First-match lookup in an association list of strings. -/
def lookupStr : List (String × String) → String → Option String
  | [], _ => none
  | p :: rest, n => if p.1 == n then some p.2 else lookupStr rest n

/-- The name a single column gets under a rename table (dict.get(c, c)). -/
def renameWith (m : List (String × String)) (n : String) : String :=
  (lookupStr m n).getD n

/-- df.rename(columns=m): relabel every column independently; columns
whose name is not a key keep their name.  No column is dropped or merged,
so two synonyms of one canonical field yield duplicate columns. -/
def renameDF (m : List (String × String)) (d : DF) : DF :=
  d.map (fun e => (renameWith m e.1, e.2))

/-! ### The cleaning pipeline (source lines 64-96) -/

/-- The nine canonical fields, in the order of source line 78. -/
def needed_cols : List String :=
  ["标题", "曝光", "观看", "点赞", "评论", "收藏", "分享", "涨粉", "CTR"]

/-- Source lines 64-70: when both a stripped 转发聊天和朋友圈 column in the
raw frame and a 分享 column in the renamed frame exist, replace 分享 with
the elementwise sum of the two columns, each coerced with
pd.to_numeric(errors=coerce).fillna(0). -/
def mergeShares (df dfStd : DF) : Except String DF :=
  if hasCol df "转发聊天和朋友圈" && hasCol dfStd "分享" then do
    let s1 ← getCol dfStd "分享"
    let s2 ← getCol df "转发聊天和朋友圈"
    pure (setCol dfStd "分享"
      (List.zipWith addVal (s1.map coerce0) (s2.map coerce0)))
  else pure dfStd

/-- Source lines 79-81: insert every absent canonical column with the
scalar 0 broadcast over the rows (including 标题, which also gets 0). -/
def fillFold (L : List String) (d : DF) : DF :=
  L.foldl
    (fun d c =>
      if hasCol d c then d
      else setCol d c (List.replicate (nRows d) (Value.num 0)))
    d

/-- Source lines 84-85: coerce each listed column with
pd.to_numeric(errors=coerce).fillna(0). -/
def coerceFold (L : List String) (d : DF) : Except String DF :=
  L.foldlM
    (fun d c => do
      let vs ← getCol d c
      pure (setCol d c (vs.map coerce0)))
    d

/-- Source lines 87-91: the CTR fallback.  When sum(CTR) == 0,
sum(曝光) > 0, sum(观看) > 0 and sum(曝光) > sum(观看), set CTR to the
elementwise division 观看 / 曝光; otherwise leave the frame unchanged. -/
def ctrStep (d : DF) : Except String DF := do
  let ctr ← getCol d "CTR"
  let imp ← getCol d "曝光"
  let vw ← getCol d "观看"
  if valEq0 (sumVal ctr) && valPos (sumVal imp) && valPos (sumVal vw) then
    if valGt (sumVal imp) (sumVal vw) then
      pure (setCol d "CTR" (List.zipWith divVal vw imp))
    else pure d
  else pure d

/-- Source line 94: 互动总量 = 点赞 + 评论 + 收藏 + 分享, elementwise,
assigned to the 互动总量 column (overwriting it when it already exists). -/
def engagementStep (d : DF) : Except String DF := do
  let lk ← getCol d "点赞"
  let cm ← getCol d "评论"
  let fv ← getCol d "收藏"
  let sh ← getCol d "分享"
  pure (setCol d "互动总量"
    (List.zipWith addVal (List.zipWith addVal (List.zipWith addVal lk cm) fv) sh))

/-- Source lines 75-96: the shared cleaning pipeline applied after a
platform was recognized. -/
def cleanup (dfStd : DF) (platform : String) :
    Except String (DF × String × List String) := do
  let d ← coerceFold (needed_cols.drop 1) (fillFold needed_cols dfStd)
  let d ← ctrStep d
  let d ← engagementStep d
  pure (d, platform, needed_cols)

/-- Source lines 10-96: standardize_data.  Strip the column names, detect
the platform, rename with the platform table (plus the PlatformB shares
merge), and run the cleaning pipeline; an unrecognized frame is returned
as-is (with stripped names) with label Unknown and an empty field list. -/
def standardize_data (df0 : DF) : Except String (DF × String × List String) :=
  if isXHSsig (colNames (stripDF df0)) then
    cleanup (renameDF rename_map_xhs (stripDF df0)) xhs_label
  else if isWCsig (colNames (stripDF df0)) then
    (mergeShares (stripDF df0) (renameDF rename_map_wc (stripDF df0))).bind
      (fun dfStd => cleanup dfStd wc_label)
  else
    .ok (stripDF df0, "Unknown", [])

/-! ### Concrete example frames used by the closed counterexample and
witness theorems -/

/-- Example Xiaohongshu upload with the four engagement columns. -/
def dfXhsEx : DF := [("笔记标题", [.str "t"]), ("点赞", [.num 2]), ("评论", [.num 3]),
  ("收藏", [.num 4]), ("分享", [.num 5])]

/-- The normalized output of dfXhsEx. -/
def outXhsEx : DF := [("标题", [.str "t"]), ("点赞", [.num 2]), ("评论", [.num 3]),
  ("收藏", [.num 4]), ("分享", [.num 5]), ("曝光", [.num 0]), ("观看", [.num 0]),
  ("涨粉", [.num 0]), ("CTR", [.num 0]), ("互动总量", [.num 14])]

/-- Example WeChat Channels upload with split share columns [3,5] and [2,1]. -/
def dfShareEx : DF := [("视频描述", [.str "a", .str "b"]), ("分享量", [.num 3, .num 5]),
  ("转发聊天和朋友圈", [.num 2, .num 1])]

/-- The normalized output of dfShareEx: canonical shares [5,6]. -/
def outShareEx : DF := [("标题", [.str "a", .str "b"]), ("分享", [.num 5, .num 6]),
  ("转发聊天和朋友圈", [.num 2, .num 1]), ("曝光", [.num 0, .num 0]),
  ("观看", [.num 0, .num 0]), ("点赞", [.num 0, .num 0]), ("评论", [.num 0, .num 0]),
  ("收藏", [.num 0, .num 0]), ("涨粉", [.num 0, .num 0]), ("CTR", [.num 0, .num 0]),
  ("互动总量", [.num 5, .num 6])]

/-- A mapped frame holding only the title column. -/
def dfTitleStdEx : DF := [("标题", [.str "x"])]

/-- The cleaned output of dfTitleStdEx: every other canonical field 0. -/
def outTitleStdEx : DF := [("标题", [.str "x"]), ("曝光", [.num 0]), ("观看", [.num 0]),
  ("点赞", [.num 0]), ("评论", [.num 0]), ("收藏", [.num 0]), ("分享", [.num 0]),
  ("涨粉", [.num 0]), ("CTR", [.num 0]), ("互动总量", [.num 0])]

/-- Example Xiaohongshu upload whose CTR must be derived, with a zero
impressions cell in the second row. -/
def dfCtrEx : DF := [("笔记标题", [.str "a", .str "b"]), ("曝光", [.num 10, .num 0]),
  ("观看量", [.num 1, .num 2])]

/-- The normalized output of dfCtrEx: the CTR fallback fires, and the row
with 0 impressions gets an infinite CTR, not 0. -/
def outCtrEx : DF := [("标题", [.str "a", .str "b"]), ("曝光", [.num 10, .num 0]),
  ("观看", [.num 1, .num 2]), ("点赞", [.num 0, .num 0]), ("评论", [.num 0, .num 0]),
  ("收藏", [.num 0, .num 0]), ("分享", [.num 0, .num 0]), ("涨粉", [.num 0, .num 0]),
  ("CTR", [.num (1 / 10), .inf]), ("互动总量", [.num 0, .num 0])]

/-- Example Xiaohongshu upload with a negative views cell. -/
def dfNegEx : DF := [("笔记标题", [.str "t"]), ("观看量", [.num (-1)])]

/-- The normalized output of dfNegEx: the negative value passes through. -/
def outNegEx : DF := [("标题", [.str "t"]), ("观看", [.num (-1)]), ("曝光", [.num 0]),
  ("点赞", [.num 0]), ("评论", [.num 0]), ("收藏", [.num 0]), ("分享", [.num 0]),
  ("涨粉", [.num 0]), ("CTR", [.num 0]), ("互动总量", [.num 0])]

/-- Example upload that matches the PlatformA signature by substring only,
so that no canonical field (not even 标题) exists after renaming. -/
def dfTitle0Ex : DF := [("笔记标题啊", [.str "x"])]

/-- The normalized output of dfTitle0Ex: every canonical field, including
标题, is back-filled with the number 0, not the empty string. -/
def outTitle0Ex : DF := [("笔记标题啊", [.str "x"]), ("标题", [.num 0]), ("曝光", [.num 0]),
  ("观看", [.num 0]), ("点赞", [.num 0]), ("评论", [.num 0]), ("收藏", [.num 0]),
  ("分享", [.num 0]), ("涨粉", [.num 0]), ("CTR", [.num 0]), ("互动总量", [.num 0])]

/-- Example Xiaohongshu upload with an unrecognized extra column 备注. -/
def dfRetainEx : DF := [("笔记标题", [.str "t"]), ("备注", [.str "x"])]

/-- The normalized output of dfRetainEx: the 备注 column is retained. -/
def outRetainEx : DF := [("标题", [.str "t"]), ("备注", [.str "x"]), ("曝光", [.num 0]),
  ("观看", [.num 0]), ("点赞", [.num 0]), ("评论", [.num 0]), ("收藏", [.num 0]),
  ("分享", [.num 0]), ("涨粉", [.num 0]), ("CTR", [.num 0]), ("互动总量", [.num 0])]

/-- The frame dfTitleStdEx after back-filling and coercion (the state the
CTR fallback of lines 87-91 is applied to). -/
def dTitleFilledEx : DF := [("标题", [.str "x"]), ("曝光", [.num 0]), ("观看", [.num 0]),
  ("点赞", [.num 0]), ("评论", [.num 0]), ("收藏", [.num 0]), ("分享", [.num 0]),
  ("涨粉", [.num 0]), ("CTR", [.num 0])]

end XhsAnalyst

deriving instance DecidableEq for Except
namespace XhsAnalyst

/-! ### Basic lemmas about column access and assignment -/

theorem hasCol_iff_filter_ne_nil (d : DF) (c : String) :
    hasCol d c = true ↔ d.filter (fun e => e.1 == c) ≠ [] := by
  simp [hasCol, List.any_eq_true, List.filter_eq_nil_iff, beq_iff_eq]

theorem getCol_cases (d : DF) (c : String) :
    getCol d c = .error "KeyError" ∨ getCol d c = .error "TypeError" ∨
      ∃ vs, getCol d c = .ok vs := by
  unfold getCol
  rcases h : d.filter (fun e => e.1 == c) with _ | ⟨e, _ | ⟨f, t⟩⟩ <;>
    rw [h] <;> simp

theorem getCol_ok_filter {d : DF} {c : String} {vs : List Value}
    (h : getCol d c = .ok vs) : d.filter (fun e => e.1 == c) = [(c, vs)] := by
  unfold getCol at h
  rcases hf : d.filter (fun e => e.1 == c) with _ | ⟨e, _ | ⟨f, t⟩⟩ <;>
    rw [hf] at h <;> simp_all
  have he : e ∈ d.filter (fun e => e.1 == c) := by rw [hf]; simp
  have h2 := (List.mem_filter.mp he).2
  have h1 : e.1 = c := by simpa [beq_iff_eq] using h2
  cases e
  simp_all

theorem getCol_ok_hasCol {d : DF} {c : String} {vs : List Value}
    (h : getCol d c = .ok vs) : hasCol d c = true := by
  rw [hasCol_iff_filter_ne_nil, getCol_ok_filter h]
  simp

theorem getCol_ok_mem {d : DF} {c : String} {vs : List Value}
    (h : getCol d c = .ok vs) : (c, vs) ∈ d := by
  have hm : (c, vs) ∈ d.filter (fun e => e.1 == c) := by
    rw [getCol_ok_filter h]; simp
  exact (List.mem_filter.mp hm).1

theorem getCol_ok_unique {d : DF} {c : String} {vs : List Value}
    (h : getCol d c = .ok vs) : ∀ e ∈ d, e.1 = c → e.2 = vs := by
  intro e he h1
  have hm : e ∈ d.filter (fun e => e.1 == c) :=
    List.mem_filter.mpr ⟨he, by simp [beq_iff_eq, h1]⟩
  rw [getCol_ok_filter h] at hm
  simp at hm
  rw [hm]

theorem hasCol_true_getCol {d : DF} {c : String} (h : hasCol d c = true) :
    (∃ vs, getCol d c = .ok vs) ∨ getCol d c = .error "TypeError" := by
  rcases getCol_cases d c with hk | ht | ⟨vs, hv⟩
  · exfalso
    rw [hasCol_iff_filter_ne_nil] at h
    unfold getCol at hk
    rcases hf : d.filter (fun e => e.1 == c) with _ | ⟨e, _ | ⟨f, t⟩⟩ <;>
      rw [hf] at hk <;> simp_all
  · exact Or.inr ht
  · exact Or.inl ⟨vs, hv⟩

end XhsAnalyst
namespace XhsAnalyst

theorem filter_setCol_ne {n c : String} (hne : n ≠ c) (d : DF) (vs : List Value) :
    (setCol d c vs).filter (fun e => e.1 == n) = d.filter (fun e => e.1 == n) := by
  unfold setCol
  by_cases h : hasCol d c = true
  · rw [if_pos h, List.filter_map]
    have hcong :
        ∀ e ∈ d.filter
          ((fun e : String × List Value => e.1 == n) ∘
            fun e => if e.1 == c then (e.1, vs) else e),
          (fun e : String × List Value => if e.1 == c then (e.1, vs) else e) e = e := by
      intro e he
      have h2 := (List.mem_filter.mp he).2
      simp only [Function.comp] at h2
      by_cases hc : (e.1 == c) = true
      · exfalso
        rw [if_pos hc] at h2
        simp only [beq_iff_eq] at h2 hc
        exact hne (h2 ▸ hc)
      · simp [hc]
    rw [List.map_congr_left hcong, List.map_id']
    congr 1
    funext e
    simp only [Function.comp]
    by_cases hc : (e.1 == c) = true
    · have h1 : e.1 = c := by simpa [beq_iff_eq] using hc
      have h2 : e.1 ≠ n := fun hn => hne (hn ▸ h1)
      simp [hc, h2]
    · simp [hc]
  · rw [if_neg h, List.filter_append]
    have hone : ((c, vs) :: []).filter (fun e => e.1 == n) = [] := by
      have : c ≠ n := fun hcn => hne hcn.symm
      simp [this]
    simp only [hone, List.append_nil]

theorem getCol_setCol_ne {n c : String} (hne : n ≠ c) (d : DF) (vs : List Value) :
    getCol (setCol d c vs) n = getCol d n := by
  unfold getCol
  rw [filter_setCol_ne hne]

theorem filter_setCol_self {d : DF} {c : String} {ws : List Value}
    (h : getCol d c = .ok ws) (vs : List Value) :
    (setCol d c vs).filter (fun e => e.1 == c) = [(c, vs)] := by
  unfold setCol
  rw [if_pos (getCol_ok_hasCol h), List.filter_map]
  have hpred :
      ((fun e : String × List Value => e.1 == c) ∘
        fun e => if e.1 == c then (e.1, vs) else e) =
      fun e : String × List Value => e.1 == c := by
    funext e
    simp only [Function.comp]
    by_cases hc : (e.1 == c) = true <;> simp [hc]
  rw [hpred, getCol_ok_filter h]
  simp

theorem getCol_setCol_self {d : DF} {c : String} {ws : List Value}
    (h : getCol d c = .ok ws) (vs : List Value) :
    getCol (setCol d c vs) c = .ok vs := by
  unfold getCol
  rw [filter_setCol_self h vs]

theorem hasCol_setCol_iff (d : DF) (c n : String) (vs : List Value) :
    hasCol (setCol d c vs) n = true ↔ (hasCol d n = true ∨ n = c) := by
  unfold setCol
  by_cases h : hasCol d c = true
  · rw [if_pos h]
    have hmap : (d.map fun e => if e.1 == c then (e.1, vs) else e).any
        (fun e => e.1 == n) = d.any (fun e => e.1 == n) := by
      rw [List.any_map]
      congr 1
      funext e
      simp only [Function.comp]
      by_cases hc : (e.1 == c) = true <;> simp [hc]
    show (List.any _ _) = true ↔ _
    rw [hmap]
    constructor
    · exact Or.inl
    · rintro (hn | rfl)
      · exact hn
      · exact h
  · rw [if_neg h]
    show (List.any _ _) = true ↔ _
    rw [List.any_append]
    show (hasCol d n || _) = true ↔ _
    rcases hn : hasCol d n with _ | _
    · simp only [Bool.false_or]
      constructor
      · intro hx
        have : c = n := by simpa [beq_iff_eq] using hx
        exact Or.inr this.symm
      · rintro (hcontra | rfl)
        · simp_all
        · simp
    · simp

theorem hasCol_setCol_of {d : DF} {n : String} (h : hasCol d n = true)
    (c : String) (vs : List Value) : hasCol (setCol d c vs) n = true :=
  (hasCol_setCol_iff d c n vs).mpr (Or.inl h)

theorem hasCol_setCol_self (d : DF) (c : String) (vs : List Value) :
    hasCol (setCol d c vs) c = true :=
  (hasCol_setCol_iff d c c vs).mpr (Or.inr rfl)

theorem mem_setCol_ne {d : DF} {n : String} {ws : List Value}
    (hm : (n, ws) ∈ d) (c : String) (hne : n ≠ c) (vs : List Value) :
    (n, ws) ∈ setCol d c vs := by
  unfold setCol
  by_cases h : hasCol d c = true
  · rw [if_pos h]
    have himg := List.mem_map_of_mem (fun e : String × List Value =>
      if e.1 == c then (e.1, vs) else e) hm
    have h2 : ((n, ws).1 == c) = false := by simp [hne]
    simpa [h2] using himg
  · rw [if_neg h]
    exact List.mem_append_left _ hm

theorem mem_setCol_self {d : DF} {c : String} {ws vs : List Value}
    (hm : (c, ws) ∈ setCol d c vs) : ws = vs := by
  unfold setCol at hm
  by_cases h : hasCol d c = true
  · rw [if_pos h] at hm
    rcases List.mem_map.mp hm with ⟨e, _, heq⟩
    by_cases hc : (e.1 == c) = true
    · rw [if_pos hc] at heq
      have := congrArg Prod.snd heq
      simpa using this.symm
    · rw [if_neg hc] at heq
      have h1 : e.1 = c := by rw [heq]
      simp [h1] at hc
  · rw [if_neg h] at hm
    rcases List.mem_append.mp hm with hin | hin
    · exfalso
      have hx : hasCol d c = true := by
        unfold hasCol
        rw [List.any_eq_true]
        exact ⟨(c, ws), hin, by simp⟩
      exact h hx
    · simp at hin
      exact hin

end XhsAnalyst
namespace XhsAnalyst

theorem hasCol_false_filter {d : DF} {c : String} (h : hasCol d c = false) :
    d.filter (fun e => e.1 == c) = [] := by
  by_contra hne
  have := (hasCol_iff_filter_ne_nil d c).mpr hne
  simp [this] at h

theorem getCol_setCol_absent {d : DF} {c : String} (h : hasCol d c = false)
    (vs : List Value) : getCol (setCol d c vs) c = .ok vs := by
  unfold setCol
  rw [if_neg (by simp [h]), getCol]
  rw [List.filter_append, hasCol_false_filter h]
  simp

theorem nRows_setCol_replicate (d : DF) (c : String) (v : Value) :
    nRows (setCol d c (List.replicate (nRows d) v)) = nRows d := by
  unfold setCol
  by_cases h : hasCol d c = true
  · rw [if_pos h]
    cases d with
    | nil => simp [nRows]
    | cons e t =>
      by_cases hc : e.1 = c <;> simp [nRows, hc]
  · rw [if_neg h]
    cases d with
    | nil => simp [nRows]
    | cons e t => simp [nRows]

theorem nRows_setCol_len {d : DF} {c : String} {ws vs : List Value}
    (h : getCol d c = .ok ws) (hlen : vs.length = ws.length) :
    nRows (setCol d c vs) = nRows d := by
  unfold setCol
  rw [if_pos (getCol_ok_hasCol h)]
  cases d with
  | nil => simp [nRows]
  | cons e t =>
    by_cases hc : e.1 = c
    · have h2 : e.2 = ws := getCol_ok_unique h e (by simp) hc
      simp [nRows, hc, hlen, h2]
    · simp [nRows, hc]

/-! ### Lemmas about the back-fill fold (source lines 79-81) -/

theorem fillFold_nil (d : DF) : fillFold [] d = d := rfl

theorem fillFold_cons (c : String) (L : List String) (d : DF) :
    fillFold (c :: L) d =
      fillFold L
        (if hasCol d c then d else setCol d c (List.replicate (nRows d) (Value.num 0))) := by
  by_cases h : hasCol d c = true <;> simp [fillFold, List.foldl, h]

theorem fillFold_hasCol_preserve {d : DF} {n : String} (L : List String)
    (h : hasCol d n = true) : hasCol (fillFold L d) n = true := by
  induction L generalizing d with
  | nil => exact h
  | cons c L ih =>
    rw [fillFold_cons]
    by_cases hc : hasCol d c = true
    · rw [if_pos hc]; exact ih h
    · rw [if_neg hc]; exact ih (hasCol_setCol_of h c _)

theorem fillFold_hasCol_mem {n : String} (L : List String) (d : DF)
    (h : n ∈ L) : hasCol (fillFold L d) n = true := by
  induction L generalizing d with
  | nil => cases h
  | cons c L ih =>
    rw [fillFold_cons]
    rcases List.mem_cons.mp h with rfl | hmem
    · by_cases hc : hasCol d n = true
      · rw [if_pos hc]; exact fillFold_hasCol_preserve L hc
      · rw [if_neg hc]
        exact fillFold_hasCol_preserve L (hasCol_setCol_self d n _)
    · by_cases hc : hasCol d c = true
      · rw [if_pos hc]; exact ih _ hmem
      · rw [if_neg hc]; exact ih _ hmem

theorem fillFold_nRows (L : List String) (d : DF) :
    nRows (fillFold L d) = nRows d := by
  induction L generalizing d with
  | nil => rfl
  | cons c L ih =>
    rw [fillFold_cons]
    by_cases hc : hasCol d c = true
    · rw [if_pos hc]; exact ih d
    · rw [if_neg hc]
      rw [ih _, nRows_setCol_replicate]

theorem fillFold_getCol_preserve {d : DF} {n : String} {vs : List Value}
    (L : List String) (h : getCol d n = .ok vs) :
    getCol (fillFold L d) n = .ok vs := by
  induction L generalizing d with
  | nil => exact h
  | cons c L ih =>
    rw [fillFold_cons]
    by_cases hc : hasCol d c = true
    · rw [if_pos hc]; exact ih h
    · rw [if_neg hc]
      have hne : n ≠ c := by
        intro hcontra
        rw [hcontra] at h
        rw [getCol_ok_hasCol h] at hc
        exact hc rfl
      exact ih (by rw [getCol_setCol_ne hne]; exact h)

theorem fillFold_mem_preserve {d : DF} {n : String} {vs : List Value}
    (L : List String) (h : (n, vs) ∈ d) : (n, vs) ∈ fillFold L d := by
  induction L generalizing d with
  | nil => exact h
  | cons c L ih =>
    rw [fillFold_cons]
    by_cases hc : hasCol d c = true
    · rw [if_pos hc]; exact ih h
    · rw [if_neg hc]
      have hn : hasCol d n = true := by
        unfold hasCol
        rw [List.any_eq_true]
        exact ⟨(n, vs), h, by simp⟩
      have hne : n ≠ c := by
        intro hcontra
        rw [hcontra] at hn
        rw [hn] at hc
        exact hc rfl
      exact ih (mem_setCol_ne h c hne _)

theorem fillFold_absent_getCol {d : DF} {n : String} (L : List String)
    (hmem : n ∈ L) (h : hasCol d n = false) :
    getCol (fillFold L d) n = .ok (List.replicate (nRows d) (Value.num 0)) := by
  induction L generalizing d with
  | nil => cases hmem
  | cons c L ih =>
    rw [fillFold_cons]
    rcases List.mem_cons.mp hmem with rfl | htail
    · rw [if_neg (by simp [h])]
      exact fillFold_getCol_preserve L (getCol_setCol_absent h _)
    · by_cases hc : hasCol d c = true
      · rw [if_pos hc]; exact ih htail h
      · rw [if_neg hc]
        by_cases hnc : n = c
        · subst hnc
          exact fillFold_getCol_preserve L (getCol_setCol_absent h _)
        · have h2 : hasCol (setCol d c (List.replicate (nRows d) (Value.num 0))) n = false := by
            rcases hx : hasCol (setCol d c (List.replicate (nRows d) (Value.num 0))) n with _ | _
            · rfl
            · rcases (hasCol_setCol_iff d c n _).mp hx with hy | hy
              · rw [hy] at h; cases h
              · exact absurd hy hnc
          have h3 := ih htail h2
          rwa [nRows_setCol_replicate] at h3

end XhsAnalyst
namespace XhsAnalyst

/-! ### Lemmas about per-cell coercion and the coercion fold (lines 84-85) -/

theorem coerce0_num (q : ℚ) : coerce0 (Value.num q) = Value.num q := rfl

theorem coerce0_shape (v : Value) :
    (∃ q, coerce0 v = Value.num q) ∨ coerce0 v = Value.inf ∨ coerce0 v = Value.ninf := by
  cases v with
  | num q => exact Or.inl ⟨q, rfl⟩
  | str s =>
    rcases h : parseNum s with _ | q
    · exact Or.inl ⟨0, by simp [coerce0, toNumericVal, h, fillna0]⟩
    · exact Or.inl ⟨q, by simp [coerce0, toNumericVal, h, fillna0]⟩
  | nan => exact Or.inl ⟨0, rfl⟩
  | inf => exact Or.inr (Or.inl rfl)
  | ninf => exact Or.inr (Or.inr rfl)

theorem coerce0_idem (v : Value) : coerce0 (coerce0 v) = coerce0 v := by
  rcases coerce0_shape v with ⟨q, hq⟩ | hq | hq <;> rw [hq] <;> rfl

theorem map_coerce0_idem (vs : List Value) :
    (vs.map coerce0).map coerce0 = vs.map coerce0 := by
  rw [List.map_map]
  exact List.map_congr_left (fun v _ => coerce0_idem v)

theorem coerceFold_nil (d : DF) : coerceFold [] d = .ok d := rfl

theorem coerceFold_cons (c : String) (L : List String) (d : DF) :
    coerceFold (c :: L) d =
      match getCol d c with
      | .error e => .error e
      | .ok vs => coerceFold L (setCol d c (vs.map coerce0)) := by
  show List.foldlM _ d (c :: L) = _
  rw [List.foldlM_cons]
  cases h : getCol d c <;> rfl

theorem coerceFold_ok_or {L : List String} {d : DF}
    (h : ∀ c ∈ L, hasCol d c = true) :
    (∃ d2, coerceFold L d = .ok d2) ∨ coerceFold L d = .error "TypeError" := by
  induction L generalizing d with
  | nil => exact Or.inl ⟨d, rfl⟩
  | cons c L ih =>
    rw [coerceFold_cons]
    rcases hasCol_true_getCol (h c (by simp)) with ⟨vs, hok⟩ | herr
    · rw [hok]
      exact ih (fun c2 hc2 => hasCol_setCol_of (h c2 (by simp [hc2])) c _)
    · rw [herr]
      exact Or.inr rfl

theorem coerceFold_hasCol {L : List String} {d d2 : DF} {n : String}
    (h : coerceFold L d = .ok d2) (hn : hasCol d n = true) :
    hasCol d2 n = true := by
  induction L generalizing d with
  | nil => rw [coerceFold_nil] at h; cases h; exact hn
  | cons c L ih =>
    rw [coerceFold_cons] at h
    cases hg : getCol d c with
    | error e => rw [hg] at h; cases h
    | ok vs =>
      rw [hg] at h
      exact ih h (hasCol_setCol_of hn c _)

theorem coerceFold_getCol_notmem {L : List String} {d d2 : DF} {n : String}
    (hmem : n ∉ L) (h : coerceFold L d = .ok d2) :
    getCol d2 n = getCol d n := by
  induction L generalizing d with
  | nil => rw [coerceFold_nil] at h; cases h; rfl
  | cons c L ih =>
    rw [coerceFold_cons] at h
    cases hg : getCol d c with
    | error e => rw [hg] at h; cases h
    | ok vs =>
      rw [hg] at h
      have hne : n ≠ c := fun hx => hmem (by simp [hx])
      rw [ih (fun hx => hmem (by simp [hx])) h, getCol_setCol_ne hne]

theorem coerceFold_mem_preserve {L : List String} {d d2 : DF} {n : String}
    {vs : List Value} (hmem : n ∉ L) (hin : (n, vs) ∈ d)
    (h : coerceFold L d = .ok d2) : (n, vs) ∈ d2 := by
  induction L generalizing d with
  | nil => rw [coerceFold_nil] at h; cases h; exact hin
  | cons c L ih =>
    rw [coerceFold_cons] at h
    cases hg : getCol d c with
    | error e => rw [hg] at h; cases h
    | ok ws =>
      rw [hg] at h
      have hne : n ≠ c := fun hx => hmem (by simp [hx])
      exact ih (fun hx => hmem (by simp [hx])) (mem_setCol_ne hin c hne _) h

theorem coerceFold_stable {L : List String} {d d2 : DF} {n : String}
    {X : List Value} (hx : getCol d n = .ok X) (hst : X.map coerce0 = X)
    (h : coerceFold L d = .ok d2) : getCol d2 n = .ok X := by
  induction L generalizing d with
  | nil => rw [coerceFold_nil] at h; cases h; exact hx
  | cons c L ih =>
    rw [coerceFold_cons] at h
    cases hg : getCol d c with
    | error e => rw [hg] at h; cases h
    | ok ws =>
      rw [hg] at h
      by_cases hnc : n = c
      · subst hnc
        rw [hx] at hg
        cases hg
        refine ih ?_ h
        rw [hst]
        exact getCol_setCol_self hx X
      · exact ih (by rw [getCol_setCol_ne hnc]; exact hx) h

theorem coerceFold_getCol_mem {L : List String} {d d2 : DF} {n : String}
    (hmem : n ∈ L) (h : coerceFold L d = .ok d2) :
    ∃ vs, getCol d n = .ok vs ∧ getCol d2 n = .ok (vs.map coerce0) := by
  induction L generalizing d with
  | nil => cases hmem
  | cons c L ih =>
    rw [coerceFold_cons] at h
    cases hg : getCol d c with
    | error e => rw [hg] at h; cases h
    | ok ws =>
      rw [hg] at h
      by_cases hnc : n = c
      · subst hnc
        refine ⟨ws, hg, ?_⟩
        exact coerceFold_stable (getCol_setCol_self hg _) (map_coerce0_idem ws) h
      · rcases List.mem_cons.mp hmem with hcontra | htail
        · exact absurd hcontra hnc
        · rcases ih htail h with ⟨vs, h1, h2⟩
          rw [getCol_setCol_ne hnc] at h1
          exact ⟨vs, h1, h2⟩

theorem setCol_colNames {d : DF} {c : String} (h : hasCol d c = true)
    (vs : List Value) : colNames (setCol d c vs) = colNames d := by
  unfold setCol colNames
  rw [if_pos h, List.map_map]
  exact List.map_congr_left (fun e _ => by by_cases hc : e.1 = c <;> simp [hc])

theorem coerceFold_colNames {L : List String} {d d2 : DF}
    (h : coerceFold L d = .ok d2) : colNames d2 = colNames d := by
  induction L generalizing d with
  | nil => rw [coerceFold_nil] at h; cases h; rfl
  | cons c L ih =>
    rw [coerceFold_cons] at h
    cases hg : getCol d c with
    | error e => rw [hg] at h; cases h
    | ok ws =>
      rw [hg] at h
      rw [ih h, setCol_colNames (getCol_ok_hasCol hg)]

end XhsAnalyst
namespace XhsAnalyst

/-! ### Inversion helpers for the Except monad -/

theorem bindE {α β : Type} {x : Except String α} {f : α → Except String β}
    {r : β} (h : (x >>= f) = .ok r) : ∃ a, x = .ok a ∧ f a = .ok r := by
  cases x with
  | error e =>
    exact absurd h (by intro hc; exact Except.noConfusion hc)
  | ok a => exact ⟨a, rfl, h⟩

theorem pureE {β : Type} {a r : β} (h : (pure a : Except String β) = .ok r) :
    a = r := Except.ok.inj h

theorem okBind {α β : Type} (a : α) (f : α → Except String β) :
    (Except.ok a >>= f) = f a := rfl

/-! ### Lemmas about the pipeline steps -/

theorem ctrStep_eq {d : DF} {ctr imp vw : List Value}
    (hctr : getCol d "CTR" = .ok ctr) (himp : getCol d "曝光" = .ok imp)
    (hvw : getCol d "观看" = .ok vw) :
    ctrStep d = .ok
      (if valEq0 (sumVal ctr) && valPos (sumVal imp) && valPos (sumVal vw)
          && valGt (sumVal imp) (sumVal vw)
        then setCol d "CTR" (List.zipWith divVal vw imp) else d) := by
  unfold ctrStep
  rw [hctr, himp, hvw, okBind, okBind, okBind]
  by_cases hA : (valEq0 (sumVal ctr) && valPos (sumVal imp) && valPos (sumVal vw)) = true
  · rw [if_pos hA]
    by_cases hG : valGt (sumVal imp) (sumVal vw) = true
    · rw [if_pos hG, if_pos (show (valEq0 (sumVal ctr) && valPos (sumVal imp)
        && valPos (sumVal vw) && valGt (sumVal imp) (sumVal vw)) = true by simp [hA, hG])]
      rfl
    · rw [if_neg hG, if_neg (show ¬ (valEq0 (sumVal ctr) && valPos (sumVal imp)
        && valPos (sumVal vw) && valGt (sumVal imp) (sumVal vw)) = true by
          intro hcontra
          rw [Bool.and_eq_true] at hcontra
          exact hG hcontra.2)]
      rfl
  · rw [if_neg hA, if_neg (show ¬ (valEq0 (sumVal ctr) && valPos (sumVal imp)
      && valPos (sumVal vw) && valGt (sumVal imp) (sumVal vw)) = true by
        intro hcontra
        rw [Bool.and_eq_true] at hcontra
        exact hA hcontra.1)]
    rfl

theorem ctrStep_ok_inv {d d2 : DF} (h : ctrStep d = .ok d2) :
    d2 = d ∨ ∃ vw imp, getCol d "观看" = .ok vw ∧ getCol d "曝光" = .ok imp ∧
      d2 = setCol d "CTR" (List.zipWith divVal vw imp) := by
  unfold ctrStep at h
  obtain ⟨ctr, hctr, h⟩ := bindE h
  obtain ⟨imp, himp, h⟩ := bindE h
  obtain ⟨vw, hvw, h⟩ := bindE h
  by_cases hA : (valEq0 (sumVal ctr) && valPos (sumVal imp) && valPos (sumVal vw)) = true
  · rw [if_pos hA] at h
    by_cases hG : (valGt (sumVal imp) (sumVal vw)) = true
    · rw [if_pos hG] at h
      exact Or.inr ⟨vw, imp, hvw, himp, (pureE h).symm⟩
    · rw [if_neg hG] at h
      exact Or.inl (pureE h).symm
  · rw [if_neg hA] at h
    exact Or.inl (pureE h).symm

theorem ctrStep_getCol_ne {d d2 : DF} {n : String} (hne : n ≠ "CTR")
    (h : ctrStep d = .ok d2) : getCol d2 n = getCol d n := by
  rcases ctrStep_ok_inv h with rfl | ⟨vw, imp, _, _, rfl⟩
  · rfl
  · exact getCol_setCol_ne hne d _

theorem ctrStep_hasCol {d d2 : DF} {n : String} (h : ctrStep d = .ok d2)
    (hn : hasCol d n = true) : hasCol d2 n = true := by
  rcases ctrStep_ok_inv h with rfl | ⟨vw, imp, _, _, rfl⟩
  · exact hn
  · exact hasCol_setCol_of hn _ _

theorem ctrStep_mem {d d2 : DF} {n : String} {vs : List Value} (hne : n ≠ "CTR")
    (h : ctrStep d = .ok d2) (hm : (n, vs) ∈ d) : (n, vs) ∈ d2 := by
  rcases ctrStep_ok_inv h with rfl | ⟨vw, imp, _, _, rfl⟩
  · exact hm
  · exact mem_setCol_ne hm _ hne _

theorem ctrStep_ok_or {d : DF} (h1 : hasCol d "CTR" = true)
    (h2 : hasCol d "曝光" = true) (h3 : hasCol d "观看" = true) :
    (∃ d2, ctrStep d = .ok d2) ∨ ctrStep d = .error "TypeError" := by
  rcases hasCol_true_getCol h1 with ⟨ctr, hctr⟩ | hctr
  · rcases hasCol_true_getCol h2 with ⟨imp, himp⟩ | himp
    · rcases hasCol_true_getCol h3 with ⟨vw, hvw⟩ | hvw
      · exact Or.inl ⟨_, ctrStep_eq hctr himp hvw⟩
      · right; unfold ctrStep; rw [hctr, himp, hvw]; rfl
    · right; unfold ctrStep; rw [hctr, himp]; rfl
  · right; unfold ctrStep; rw [hctr]; rfl

theorem engagementStep_inv {d d2 : DF} (h : engagementStep d = .ok d2) :
    ∃ lk cm fv sh, getCol d "点赞" = .ok lk ∧ getCol d "评论" = .ok cm ∧
      getCol d "收藏" = .ok fv ∧ getCol d "分享" = .ok sh ∧
      d2 = setCol d "互动总量"
        (List.zipWith addVal (List.zipWith addVal (List.zipWith addVal lk cm) fv) sh) := by
  unfold engagementStep at h
  obtain ⟨lk, hlk, h⟩ := bindE h
  obtain ⟨cm, hcm, h⟩ := bindE h
  obtain ⟨fv, hfv, h⟩ := bindE h
  obtain ⟨sh, hsh, h⟩ := bindE h
  exact ⟨lk, cm, fv, sh, hlk, hcm, hfv, hsh, (pureE h).symm⟩

theorem engagementStep_eq {d : DF} {lk cm fv sh : List Value}
    (hlk : getCol d "点赞" = .ok lk) (hcm : getCol d "评论" = .ok cm)
    (hfv : getCol d "收藏" = .ok fv) (hsh : getCol d "分享" = .ok sh) :
    engagementStep d = .ok (setCol d "互动总量"
      (List.zipWith addVal (List.zipWith addVal (List.zipWith addVal lk cm) fv) sh)) := by
  unfold engagementStep
  rw [hlk, hcm, hfv, hsh]
  rfl

theorem engagementStep_ok_or {d : DF} (h1 : hasCol d "点赞" = true)
    (h2 : hasCol d "评论" = true) (h3 : hasCol d "收藏" = true)
    (h4 : hasCol d "分享" = true) :
    (∃ d2, engagementStep d = .ok d2) ∨ engagementStep d = .error "TypeError" := by
  rcases hasCol_true_getCol h1 with ⟨lk, hlk⟩ | hlk
  · rcases hasCol_true_getCol h2 with ⟨cm, hcm⟩ | hcm
    · rcases hasCol_true_getCol h3 with ⟨fv, hfv⟩ | hfv
      · rcases hasCol_true_getCol h4 with ⟨sh, hsh⟩ | hsh
        · exact Or.inl ⟨_, engagementStep_eq hlk hcm hfv hsh⟩
        · right; unfold engagementStep; rw [hlk, hcm, hfv, hsh]; rfl
      · right; unfold engagementStep; rw [hlk, hcm, hfv]; rfl
    · right; unfold engagementStep; rw [hlk, hcm]; rfl
  · right; unfold engagementStep; rw [hlk]; rfl

theorem mergeShares_inv {df dfStd d2 : DF} (h : mergeShares df dfStd = .ok d2) :
    d2 = dfStd ∨ ∃ s1 s2, getCol dfStd "分享" = .ok s1 ∧
      getCol df "转发聊天和朋友圈" = .ok s2 ∧
      d2 = setCol dfStd "分享"
        (List.zipWith addVal (s1.map coerce0) (s2.map coerce0)) := by
  unfold mergeShares at h
  by_cases hc : (hasCol df "转发聊天和朋友圈" && hasCol dfStd "分享") = true
  · rw [if_pos hc] at h
    obtain ⟨s1, hs1, h⟩ := bindE h
    obtain ⟨s2, hs2, h⟩ := bindE h
    exact Or.inr ⟨s1, s2, hs1, hs2, (pureE h).symm⟩
  · rw [if_neg hc] at h
    exact Or.inl (pureE h).symm

theorem cleanup_inv {dfStd out : DF} {p p2 : String} {fs : List String}
    (h : cleanup dfStd p = .ok (out, p2, fs)) :
    p2 = p ∧ fs = needed_cols ∧
      ∃ d1 d2, coerceFold (needed_cols.drop 1) (fillFold needed_cols dfStd) = .ok d1 ∧
        ctrStep d1 = .ok d2 ∧ engagementStep d2 = .ok out := by
  unfold cleanup at h
  obtain ⟨d1, h1, h⟩ := bindE h
  obtain ⟨d2, h2, h⟩ := bindE h
  obtain ⟨d3, h3, h⟩ := bindE h
  have hp := pureE h
  obtain ⟨he1, he2, he3⟩ : d3 = out ∧ p = p2 ∧ needed_cols = fs := by
    refine ⟨congrArg Prod.fst hp, ?_, ?_⟩
    · exact congrArg (Prod.fst ∘ Prod.snd) hp
    · exact congrArg (Prod.snd ∘ Prod.snd) hp
  subst he1 he2 he3
  exact ⟨rfl, rfl, d1, d2, h1, h2, h3⟩

theorem cleanup_eq {dfStd d1 d2 d3 : DF} {p : String}
    (h1 : coerceFold (needed_cols.drop 1) (fillFold needed_cols dfStd) = .ok d1)
    (h2 : ctrStep d1 = .ok d2) (h3 : engagementStep d2 = .ok d3) :
    cleanup dfStd p = .ok (d3, p, needed_cols) := by
  unfold cleanup
  rw [h1]
  show (ctrStep d1 >>= _) = _
  rw [h2]
  show (engagementStep d2 >>= _) = _
  rw [h3]
  rfl

theorem standardize_xhs {df0 : DF} (h : isXHSsig (colNames (stripDF df0)) = true) :
    standardize_data df0 = cleanup (renameDF rename_map_xhs (stripDF df0)) xhs_label := by
  unfold standardize_data
  rw [if_pos h]

theorem standardize_wc {df0 : DF} (h1 : isXHSsig (colNames (stripDF df0)) = false)
    (h2 : isWCsig (colNames (stripDF df0)) = true) :
    standardize_data df0 =
      (mergeShares (stripDF df0) (renameDF rename_map_wc (stripDF df0))).bind
        (fun dfStd => cleanup dfStd wc_label) := by
  unfold standardize_data
  rw [if_neg (by simp [h1]), if_pos h2]

theorem standardize_unknown {df0 : DF} (h1 : isXHSsig (colNames (stripDF df0)) = false)
    (h2 : isWCsig (colNames (stripDF df0)) = false) :
    standardize_data df0 = .ok (stripDF df0, "Unknown", []) := by
  unfold standardize_data
  rw [if_neg (by simp [h1]), if_neg (by simp [h2])]

end XhsAnalyst
namespace XhsAnalyst

/-! ### Lemmas about detection and renaming -/

theorem any_perm {ns ns2 : List String} (h : ns.Perm ns2) (f : String → Bool) :
    ns.any f = ns2.any f := by
  rcases hx : ns.any f with _ | _
  · rcases hy : ns2.any f with _ | _
    · rfl
    · exfalso
      rw [List.any_eq_true] at hy
      rcases hy with ⟨x, hx2, hfx⟩
      have : ns.any f = true :=
        List.any_eq_true.mpr ⟨x, h.mem_iff.mpr hx2, hfx⟩
      rw [hx] at this
      cases this
  · rw [List.any_eq_true] at hx
    rcases hx with ⟨x, hx2, hfx⟩
    exact (List.any_eq_true.mpr ⟨x, h.mem_iff.mp hx2, hfx⟩).symm

theorem isXHSsig_perm {ns ns2 : List String} (h : ns.Perm ns2) :
    isXHSsig ns = isXHSsig ns2 := any_perm h _

theorem isWCsig_perm {ns ns2 : List String} (h : ns.Perm ns2) :
    isWCsig ns = isWCsig ns2 := by
  unfold isWCsig
  congr 1
  funext x
  have h1 : ns.contains x = true ↔ x ∈ ns := List.elem_iff
  have h2 : ns2.contains x = true ↔ x ∈ ns2 := List.elem_iff
  rcases hx : ns.contains x with _ | _
  · rcases hy : ns2.contains x with _ | _
    · rfl
    · exact absurd (hx ▸ h1.mpr (h.mem_iff.mpr (h2.mp hy))) (by simp)
  · exact (h2.mpr (h.mem_iff.mp (h1.mp hx))).symm

theorem detectPlatform_perm {ns ns2 : List String} (h : ns.Perm ns2) :
    detectPlatform ns = detectPlatform ns2 := by
  unfold detectPlatform
  rw [isXHSsig_perm h, isWCsig_perm h]

theorem lookupStr_eq_none {m : List (String × String)} {n : String}
    (h : n ∉ m.map Prod.fst) : lookupStr m n = none := by
  induction m with
  | nil => rfl
  | cons p rest ih =>
    have h1 : ¬(p.1 == n) = true := by
      simp only [beq_iff_eq]
      intro hx
      exact h (by simp [hx])
    unfold lookupStr
    rw [if_neg h1]
    exact ih (fun hx => h (by simp at hx ⊢; exact Or.inr hx))

theorem renameWith_not_key {m : List (String × String)} {n : String}
    (h : n ∉ m.map Prod.fst) : renameWith m n = n := by
  unfold renameWith
  rw [lookupStr_eq_none h]
  rfl

theorem mem_renameDF {d : DF} {n : String} {vs : List Value}
    (hm : (n, vs) ∈ d) (m : List (String × String)) (h : n ∉ m.map Prod.fst) :
    (n, vs) ∈ renameDF m d := by
  exact List.mem_map.mpr ⟨(n, vs), hm, by simp [renameWith_not_key h]⟩

/-! ### Composite lemmas about the cleanup pipeline -/

theorem engagementStep_getCol_ne {d d2 : DF} {n : String} (hne : n ≠ "互动总量")
    (h : engagementStep d = .ok d2) : getCol d2 n = getCol d n := by
  rcases engagementStep_inv h with ⟨lk, cm, fv, sh, _, _, _, _, rfl⟩
  exact getCol_setCol_ne hne d _

theorem engagementStep_mem {d d2 : DF} {n : String} {vs : List Value}
    (hne : n ≠ "互动总量") (h : engagementStep d = .ok d2)
    (hm : (n, vs) ∈ d) : (n, vs) ∈ d2 := by
  rcases engagementStep_inv h with ⟨lk, cm, fv, sh, _, _, _, _, rfl⟩
  exact mem_setCol_ne hm _ hne _

theorem needed_ne_eng : ∀ c ∈ needed_cols, c ≠ "互动总量" := by decide

theorem cleanup_hasCol {dfStd out : DF} {p p2 : String} {fs : List String}
    (h : cleanup dfStd p = .ok (out, p2, fs)) :
    ∀ c ∈ needed_cols, hasCol out c = true := by
  intro c hc
  rcases cleanup_inv h with ⟨-, -, d1, d2, h1, h2, h3⟩
  have hfill : hasCol (fillFold needed_cols dfStd) c = true :=
    fillFold_hasCol_mem _ _ hc
  have hd1 : hasCol d1 c = true := coerceFold_hasCol h1 hfill
  have hd2 : hasCol d2 c = true := ctrStep_hasCol h2 hd1
  rcases engagementStep_inv h3 with ⟨lk, cm, fv, sh, _, _, _, _, rfl⟩
  exact hasCol_setCol_of hd2 _ _

theorem cleanup_getCol_absent {dfStd out : DF} {p p2 : String} {fs : List String}
    {c : String} (h : cleanup dfStd p = .ok (out, p2, fs))
    (hc : c ∈ needed_cols) (hctr : c ≠ "CTR") (habs : hasCol dfStd c = false) :
    getCol out c = .ok (List.replicate (nRows dfStd) (Value.num 0)) := by
  rcases cleanup_inv h with ⟨-, -, d1, d2, h1, h2, h3⟩
  have hfill : getCol (fillFold needed_cols dfStd) c =
      .ok (List.replicate (nRows dfStd) (Value.num 0)) :=
    fillFold_absent_getCol _ hc habs
  have hd1 : getCol d1 c = .ok (List.replicate (nRows dfStd) (Value.num 0)) := by
    by_cases ht : c = "标题"
    · subst ht
      rw [coerceFold_getCol_notmem (by decide) h1]
      exact hfill
    · have hdrop : c ∈ needed_cols.drop 1 := by
        have : c = "标题" ∨ c ∈ needed_cols.drop 1 := by
          simpa [needed_cols] using hc
        rcases this with hx | hx
        · exact absurd hx ht
        · exact hx
      rcases coerceFold_getCol_mem hdrop h1 with ⟨vs, hvs, hvs2⟩
      rw [hfill] at hvs
      cases hvs
      rw [hvs2, List.map_replicate]
      rfl
  have hd2 : getCol d2 c = .ok (List.replicate (nRows dfStd) (Value.num 0)) := by
    rw [ctrStep_getCol_ne hctr h2]
    exact hd1
  rcases engagementStep_inv h3 with ⟨lk, cm, fv, sh, _, _, _, _, rfl⟩
  rw [getCol_setCol_ne (needed_ne_eng c hc) d2 _]
  exact hd2

theorem mergeShares_ok_or (df dfStd : DF) :
    (∃ d2, mergeShares df dfStd = .ok d2) ∨
      mergeShares df dfStd = .error "TypeError" := by
  unfold mergeShares
  by_cases hc : (hasCol df "转发聊天和朋友圈" && hasCol dfStd "分享") = true
  · rw [if_pos hc]
    rw [Bool.and_eq_true] at hc
    rcases hasCol_true_getCol hc.2 with ⟨s1, hs1⟩ | hs1
    · rcases hasCol_true_getCol hc.1 with ⟨s2, hs2⟩ | hs2
      · rw [hs1, okBind, hs2, okBind]
        exact Or.inl ⟨_, rfl⟩
      · rw [hs1, okBind, hs2]
        exact Or.inr rfl
    · rw [hs1]
      exact Or.inr rfl
  · rw [if_neg hc]
    exact Or.inl ⟨dfStd, rfl⟩

theorem cleanup_ok_or (dfStd : DF) (p : String) :
    (∃ r, cleanup dfStd p = .ok r) ∨ cleanup dfStd p = .error "TypeError" := by
  have hfill : ∀ c ∈ needed_cols.drop 1, hasCol (fillFold needed_cols dfStd) c = true :=
    fun c hc => fillFold_hasCol_mem _ _ (by
      rcases hc with hc
      exact List.mem_of_mem_drop hc)
  rcases coerceFold_ok_or hfill with ⟨d1, h1⟩ | h1
  · have hall : ∀ c ∈ needed_cols, hasCol d1 c = true := fun c hc => by
      rcases (by simpa [needed_cols] using hc :
          c = "标题" ∨ c ∈ needed_cols.drop 1) with hx | hx
      · subst hx
        exact coerceFold_hasCol h1 (fillFold_hasCol_mem _ _ (by decide))
      · exact coerceFold_hasCol h1 (hfill c hx)
    rcases ctrStep_ok_or (hall "CTR" (by decide)) (hall "曝光" (by decide))
        (hall "观看" (by decide)) with ⟨d2, h2⟩ | h2
    · have hall2 : ∀ c ∈ needed_cols, hasCol d2 c = true :=
        fun c hc => ctrStep_hasCol h2 (hall c hc)
      rcases engagementStep_ok_or (hall2 "点赞" (by decide)) (hall2 "评论" (by decide))
          (hall2 "收藏" (by decide)) (hall2 "分享" (by decide)) with ⟨d3, h3⟩ | h3
      · exact Or.inl ⟨_, cleanup_eq h1 h2 h3⟩
      · right
        unfold cleanup
        rw [h1, okBind, h2, okBind, h3]
        rfl
    · right
      unfold cleanup
      rw [h1, okBind, h2]
      rfl
  · right
    unfold cleanup
    rw [h1]
    rfl

end XhsAnalyst
namespace XhsAnalyst

/-! ### Small arithmetic and structural helpers -/

theorem get?_zipWith_some {α β γ : Type} {f : α → β → γ} {as : List α}
    {bs : List β} {i : ℕ} {a : α} {b : β} (ha : as.get? i = some a)
    (hb : bs.get? i = some b) :
    (List.zipWith f as bs).get? i = some (f a b) := by
  rw [List.get?_zipWith', ha, hb]
  rfl

theorem nRows_stripDF (d : DF) : nRows (stripDF d) = nRows d := by
  cases d <;> rfl

theorem nRows_renameDF (m : List (String × String)) (d : DF) :
    nRows (renameDF m d) = nRows d := by
  cases d <;> rfl

theorem sumVal_replicate_zero (n : ℕ) :
    sumVal (List.replicate n (Value.num 0)) = Value.num 0 := by
  have hstep : addVal (Value.num 0) (Value.num 0) = Value.num 0 := by
    with_unfolding_all decide
  induction n with
  | zero => rfl
  | succ n ih =>
    rw [List.replicate_succ]
    show List.foldl (fun acc v => match v with | Value.nan => acc | _ => addVal acc v)
      (addVal (Value.num 0) (Value.num 0)) (List.replicate n (Value.num 0)) = Value.num 0
    rw [hstep]
    exact ih

theorem zipWith_addVal_zero (n : ℕ) :
    List.zipWith addVal (List.replicate n (Value.num 0))
      (List.replicate n (Value.num 0)) = List.replicate n (Value.num 0) := by
  induction n with
  | zero => rfl
  | succ n ih =>
    rw [List.replicate_succ]
    show addVal (Value.num 0) (Value.num 0) ::
      List.zipWith addVal (List.replicate n (Value.num 0))
        (List.replicate n (Value.num 0)) =
      Value.num 0 :: List.replicate n (Value.num 0)
    rw [show addVal (Value.num 0) (Value.num 0) = Value.num 0 by
      with_unfolding_all decide, ih]

theorem coerceFold_ok_of_unique {L : List String} {d : DF}
    (h : ∀ c ∈ L, ∃ vs, getCol d c = .ok vs) :
    ∃ d2, coerceFold L d = .ok d2 := by
  induction L generalizing d with
  | nil => exact ⟨d, rfl⟩
  | cons c L ih =>
    rcases h c (by simp) with ⟨vs, hvs⟩
    rw [coerceFold_cons, hvs]
    refine ih (fun c2 hc2 => ?_)
    by_cases hcc : c2 = c
    · subst hcc
      exact ⟨vs.map coerce0, getCol_setCol_self hvs _⟩
    · rcases h c2 (by simp [hc2]) with ⟨ws, hws⟩
      exact ⟨ws, by rw [getCol_setCol_ne hcc]; exact hws⟩

theorem cleanup_out_engagement {dfStd out : DF} {p p2 : String} {fs : List String}
    (h : cleanup dfStd p = .ok (out, p2, fs)) :
    ∃ d2 lk cm fv sh, getCol d2 "点赞" = .ok lk ∧ getCol d2 "评论" = .ok cm ∧
      getCol d2 "收藏" = .ok fv ∧ getCol d2 "分享" = .ok sh ∧
      out = setCol d2 "互动总量"
        (List.zipWith addVal (List.zipWith addVal (List.zipWith addVal lk cm) fv) sh) := by
  rcases cleanup_inv h with ⟨-, -, d1, d2, h1, h2, h3⟩
  rcases engagementStep_inv h3 with ⟨lk, cm, fv, sh, hlk, hcm, hfv, hsh, rfl⟩
  exact ⟨d2, lk, cm, fv, sh, hlk, hcm, hfv, hsh, rfl⟩

theorem okTriple {α β γ : Type} {a a2 : α} {b b2 : β} {c c2 : γ}
    (h : (Except.ok (a, b, c) : Except String (α × β × γ)) = .ok (a2, b2, c2)) :
    a = a2 ∧ b = b2 ∧ c = c2 := by
  have := Except.ok.inj h
  exact ⟨congrArg Prod.fst this, congrArg (Prod.fst ∘ Prod.snd) this,
    congrArg (Prod.snd ∘ Prod.snd) this⟩

theorem standardize_ok_branches {df0 out : DF} {p : String} {fs : List String}
    (h : standardize_data df0 = .ok (out, p, fs)) (hp : p ≠ "Unknown") :
    (isXHSsig (colNames (stripDF df0)) = true ∧ p = xhs_label ∧
      cleanup (renameDF rename_map_xhs (stripDF df0)) xhs_label = .ok (out, p, fs)) ∨
    (isXHSsig (colNames (stripDF df0)) = false ∧
      isWCsig (colNames (stripDF df0)) = true ∧ p = wc_label ∧
      ∃ dfStd, mergeShares (stripDF df0) (renameDF rename_map_wc (stripDF df0)) = .ok dfStd ∧
        cleanup dfStd wc_label = .ok (out, p, fs)) := by
  rcases hx : isXHSsig (colNames (stripDF df0)) with _ | _
  · rcases hw : isWCsig (colNames (stripDF df0)) with _ | _
    · exfalso
      rw [standardize_unknown hx hw] at h
      exact hp (okTriple h).2.1.symm
    · rw [standardize_wc hx hw] at h
      obtain ⟨dfStd, hm, hcl⟩ := bindE h
      exact Or.inr ⟨rfl, rfl, ((cleanup_inv hcl).1).symm ▸ rfl, dfStd, hm, hcl⟩
  · rw [standardize_xhs hx] at h
    exact Or.inl ⟨rfl, ((cleanup_inv h).1).symm ▸ rfl, h⟩

end XhsAnalyst
namespace XhsAnalyst

/-! ### Evaluation helpers for closed runs of the pipeline -/

theorem setCol_eq_self {d : DF} {c : String} {vs : List Value}
    (h : getCol d c = .ok vs) : setCol d c vs = d := by
  unfold setCol
  rw [if_pos (getCol_ok_hasCol h)]
  have hcong : ∀ e ∈ d,
      (fun e : String × List Value => if e.1 == c then (e.1, vs) else e) e = id e := by
    intro e he
    by_cases hc : (e.1 == c) = true
    · have h1 : e.1 = c := by simpa using hc
      have h2 : e.2 = vs := getCol_ok_unique h e he h1
      show (if (e.1 == c) = true then (e.1, vs) else e) = e
      rw [if_pos hc, ← h2]
    · show (if (e.1 == c) = true then (e.1, vs) else e) = e
      rw [if_neg hc]
  rw [List.map_congr_left hcong, List.map_id]

theorem coerceFold_skip {c : String} {L : List String} {d : DF} {vs : List Value}
    (hg : getCol d c = .ok vs) (hfix : vs.map coerce0 = vs) :
    coerceFold (c :: L) d = coerceFold L d := by
  rw [coerceFold_cons, hg]
  show coerceFold L (setCol d c (vs.map coerce0)) = _
  rw [hfix, setCol_eq_self hg]

theorem coerceFold_step_err {c : String} {L : List String} {d : DF}
    (hg : getCol d c = .error "TypeError") :
    coerceFold (c :: L) d = .error "TypeError" := by
  rw [coerceFold_cons, hg]

theorem cleanup_eval_err {dfStd dfill : DF} {p : String}
    (hf : fillFold needed_cols dfStd = dfill)
    (hc : coerceFold (needed_cols.drop 1) dfill = .error "TypeError") :
    cleanup dfStd p = .error "TypeError" := by
  unfold cleanup
  rw [hf, hc]
  rfl

theorem okBindE {α β : Type} (a : α) (f : α → Except String β) :
    (Except.ok a : Except String α).bind f = f a := rfl

theorem standardize_wc_eval {df0 dfStd : DF} {r : Except String (DF × String × List String)}
    (h1 : isXHSsig (colNames (stripDF df0)) = false)
    (h2 : isWCsig (colNames (stripDF df0)) = true)
    (hm : mergeShares (stripDF df0) (renameDF rename_map_wc (stripDF df0)) = .ok dfStd)
    (hcl : cleanup dfStd wc_label = r) :
    standardize_data df0 = r := by
  rw [standardize_wc h1 h2, hm, okBindE]
  exact hcl

theorem standardize_xhs_eval {df0 : DF} {r : Except String (DF × String × List String)}
    (h1 : isXHSsig (colNames (stripDF df0)) = true)
    (hcl : cleanup (renameDF rename_map_xhs (stripDF df0)) xhs_label = r) :
    standardize_data df0 = r := by
  rw [standardize_xhs h1]
  exact hcl

end XhsAnalyst
namespace XhsAnalyst

set_option maxRecDepth 8000

theorem map_coerce0_replicate (n : ℕ) :
    (List.replicate n (Value.num 0)).map coerce0 = List.replicate n (Value.num 0) := by
  rw [List.map_replicate]
  rfl

theorem fillFold_getCol_hasCol {d : DF} {n : String} (L : List String)
    (h : hasCol d n = true) : getCol (fillFold L d) n = getCol d n := by
  induction L generalizing d with
  | nil => rfl
  | cons c L ih =>
    rw [fillFold_cons]
    by_cases hc : hasCol d c = true
    · rw [if_pos hc]; exact ih h
    · rw [if_neg hc]
      have hne : n ≠ c := fun he => by rw [he] at h; rw [h] at hc; exact hc rfl
      rw [ih (hasCol_setCol_of h c _), getCol_setCol_ne hne]

/-! ### Claim theorems -/

/-- C1: platform detection over the trimmed column names.  A frame whose
names contain both the PlatformA signature (a name containing 笔记标题)
and a PlatformB signature (one exact name among 视频描述 / 动态描述 / 内容)
is classified PlatformA (小红书); only a PlatformB signature gives
PlatformB (视频号); neither gives Unknown.  Detection is invariant under
permutation of the column names, and the label standardize_data returns on
success is exactly detectPlatform of the trimmed names. -/
theorem C1_platform_detection :
    (∀ ns : List String, isXHSsig ns = true → isWCsig ns = true →
      detectPlatform ns = xhs_label) ∧
    (∀ ns : List String, isXHSsig ns = false → isWCsig ns = true →
      detectPlatform ns = wc_label) ∧
    (∀ ns : List String, isXHSsig ns = false → isWCsig ns = false →
      detectPlatform ns = "Unknown") ∧
    (∀ ns ns2 : List String, ns.Perm ns2 → detectPlatform ns = detectPlatform ns2) ∧
    (∀ (df0 out : DF) (p : String) (fs : List String),
      standardize_data df0 = .ok (out, p, fs) →
      p = detectPlatform (colNames (stripDF df0))) := by
  refine ⟨?_, ?_, ?_, ?_, ?_⟩
  · intro ns h1 _
    unfold detectPlatform
    rw [if_pos h1]
  · intro ns h1 h2
    unfold detectPlatform
    rw [if_neg (by simp [h1]), if_pos h2]
  · intro ns h1 h2
    unfold detectPlatform
    rw [if_neg (by simp [h1]), if_neg (by simp [h2])]
  · exact fun ns ns2 h => detectPlatform_perm h
  · intro df0 out p fs h
    rcases hx : isXHSsig (colNames (stripDF df0)) with _ | _
    · rcases hw : isWCsig (colNames (stripDF df0)) with _ | _
      · rw [standardize_unknown hx hw] at h
        rw [← (okTriple h).2.1]
        unfold detectPlatform
        rw [if_neg (by simp [hx]), if_neg (by simp [hw])]
      · rw [standardize_wc hx hw] at h
        obtain ⟨dfStd, hm, hcl⟩ := bindE h
        rw [(cleanup_inv hcl).1]
        unfold detectPlatform
        rw [if_neg (by simp [hx]), if_pos hw]
    · rw [standardize_xhs hx] at h
      rw [(cleanup_inv h).1]
      unfold detectPlatform
      rw [if_pos hx]

/-- Witness for C1 at concrete column-name lists. -/
theorem C1_platform_detection_witness :
    detectPlatform ["我的笔记标题", "内容"] = xhs_label ∧
    detectPlatform ["内容", "foo"] = wc_label ∧
    detectPlatform ["foo", "bar"] = "Unknown" ∧
    detectPlatform ["bar", "foo"] = detectPlatform ["foo", "bar"] :=
  ⟨C1_platform_detection.1 _ (by decide) (by decide),
   C1_platform_detection.2.1 _ (by decide) (by decide),
   C1_platform_detection.2.2.1 _ (by decide) (by decide),
   C1_platform_detection.2.2.2.1 _ _ (List.Perm.swap "foo" "bar" [])⟩

/-- C6 (amended): when neither platform signature matches the trimmed
column names, standardize_data returns the label Unknown, the empty field
list, and a frame with exactly the input's column values under trimmed
column names.  (The claim's parenthetical that names keep their surrounding
whitespace is refuted by the counterexample: line 19 of the source strips
the names before detection, and the stripped frame is what is returned.) -/
theorem C6_unknown_passthrough :
    ∀ df0 : DF, isXHSsig (colNames (stripDF df0)) = false →
      isWCsig (colNames (stripDF df0)) = false →
      standardize_data df0 = .ok (stripDF df0, "Unknown", []) ∧
      (stripDF df0).map Prod.snd = df0.map Prod.snd ∧
      colNames (stripDF df0) = (colNames df0).map String.trim := by
  intro df0 h1 h2
  refine ⟨standardize_unknown h1 h2, ?_, ?_⟩
  · unfold stripDF
    rw [List.map_map]
    rfl
  · unfold stripDF colNames
    rw [List.map_map, List.map_map]
    rfl

/-- Counterexample to C6 as stated: a column name with surrounding
whitespace comes back trimmed, so the returned dataset is not the
unmodified input. -/
theorem C6_unknown_passthrough_cex :
    standardize_data [(" foo ", [Value.num 1])] ≠
      .ok ([(" foo ", [Value.num 1])], "Unknown", []) ∧
    standardize_data [(" foo ", [Value.num 1])] =
      .ok ([("foo", [Value.num 1])], "Unknown", []) := by
  constructor
  · intro h
    exact absurd h (by with_unfolding_all decide)
  · with_unfolding_all decide

/-- Witness for C6 at a concrete unknown-platform frame. -/
theorem C6_unknown_passthrough_witness :
    standardize_data [("foo", [Value.num 1]), ("bar", [Value.str "x"])] =
      .ok (stripDF [("foo", [Value.num 1]), ("bar", [Value.str "x"])], "Unknown", []) ∧
    (stripDF [("foo", [Value.num 1]), ("bar", [Value.str "x"])]).map Prod.snd =
      ([("foo", [Value.num 1]), ("bar", [Value.str "x"])] : DF).map Prod.snd ∧
    colNames (stripDF [("foo", [Value.num 1]), ("bar", [Value.str "x"])]) =
      (colNames [("foo", [Value.num 1]), ("bar", [Value.str "x"])]).map String.trim :=
  C6_unknown_passthrough _ (by with_unfolding_all decide) (by with_unfolding_all decide)

/-- C9 (amended): standardize_data needs no input shape beyond a list of
columns and either returns a result triple or raises the TypeError that
pandas produces when a duplicated canonical column (created by renaming
several synonym columns present at once) reaches a single-column
operation.  It is NOT total: the counterexample shows a TypeError run. -/
theorem C9_totality :
    ∀ df0 : DF, (∃ r, standardize_data df0 = .ok r) ∨
      standardize_data df0 = .error "TypeError" := by
  intro df0
  rcases hx : isXHSsig (colNames (stripDF df0)) with _ | _
  · rcases hw : isWCsig (colNames (stripDF df0)) with _ | _
    · exact Or.inl ⟨_, standardize_unknown hx hw⟩
    · rw [standardize_wc hx hw]
      rcases mergeShares_ok_or (stripDF df0) (renameDF rename_map_wc (stripDF df0)) with
        ⟨dfStd, hm⟩ | hm
      · rw [hm, okBindE]
        rcases cleanup_ok_or dfStd wc_label with ⟨r, hr⟩ | hr
        · exact Or.inl ⟨r, hr⟩
        · exact Or.inr hr
      · rw [hm]
        exact Or.inr rfl
  · rw [standardize_xhs hx]
    exact cleanup_ok_or _ xhs_label

/-- Counterexample to C9 as stated: a WeChat Channels file that contains
two synonym share columns (分享量 and 转发次数) makes standardize_data
raise a TypeError instead of returning a triple. -/
theorem C9_totality_cex :
    standardize_data [("视频描述", [Value.str "a"]), ("分享量", [Value.num 1]),
      ("转发次数", [Value.num 2])] = .error "TypeError" := by
  have ht1 : "视频描述".trim = "视频描述" := by with_unfolding_all decide
  have ht2 : "分享量".trim = "分享量" := by with_unfolding_all decide
  have ht3 : "转发次数".trim = "转发次数" := by with_unfolding_all decide
  have hstrip : stripDF [("视频描述", [Value.str "a"]), ("分享量", [Value.num 1]),
      ("转发次数", [Value.num 2])] = [("视频描述", [Value.str "a"]),
      ("分享量", [Value.num 1]), ("转发次数", [Value.num 2])] := by
    show [("视频描述".trim, [Value.str "a"]), ("分享量".trim, [Value.num 1]),
      ("转发次数".trim, [Value.num 2])] = _
    rw [ht1, ht2, ht3]
  refine @standardize_wc_eval _ [("标题", [Value.str "a"]), ("分享", [Value.num 1]),
      ("分享", [Value.num 2])] _ ?_ ?_ ?_ ?_
  · rw [hstrip]
    decide
  · rw [hstrip]
    decide
  · rw [hstrip]
    decide
  · refine cleanup_eval_err rfl ?_
    show coerceFold ["曝光", "观看", "点赞", "评论", "收藏", "分享", "涨粉", "CTR"] _ =
      .error "TypeError"
    rw [coerceFold_skip (fillFold_absent_getCol needed_cols (by decide) (by decide))
        (map_coerce0_replicate _),
      coerceFold_skip (fillFold_absent_getCol needed_cols (by decide) (by decide))
        (map_coerce0_replicate _),
      coerceFold_skip (fillFold_absent_getCol needed_cols (by decide) (by decide))
        (map_coerce0_replicate _),
      coerceFold_skip (fillFold_absent_getCol needed_cols (by decide) (by decide))
        (map_coerce0_replicate _),
      coerceFold_skip (fillFold_absent_getCol needed_cols (by decide) (by decide))
        (map_coerce0_replicate _)]
    refine coerceFold_step_err ?_
    rw [fillFold_getCol_hasCol needed_cols (by decide)]
    decide

/-- Counterexample to C8 as stated: with both 播放量 and 浏览次数 present
(both mapping to 观看), standardize_data raises a TypeError; it does not
return a frame whose 观看 column holds the last synonym's values. -/
theorem C8_synonym_columns_cex :
    standardize_data [("视频描述", [Value.str "a"]), ("播放量", [Value.num 3]),
      ("浏览次数", [Value.num 5])] = .error "TypeError" := by
  have ht1 : "视频描述".trim = "视频描述" := by with_unfolding_all decide
  have ht2 : "播放量".trim = "播放量" := by with_unfolding_all decide
  have ht3 : "浏览次数".trim = "浏览次数" := by with_unfolding_all decide
  have hstrip : stripDF [("视频描述", [Value.str "a"]), ("播放量", [Value.num 3]),
      ("浏览次数", [Value.num 5])] = [("视频描述", [Value.str "a"]),
      ("播放量", [Value.num 3]), ("浏览次数", [Value.num 5])] := by
    show [("视频描述".trim, [Value.str "a"]), ("播放量".trim, [Value.num 3]),
      ("浏览次数".trim, [Value.num 5])] = _
    rw [ht1, ht2, ht3]
  refine @standardize_wc_eval _ [("标题", [Value.str "a"]), ("观看", [Value.num 3]),
      ("观看", [Value.num 5])] _ ?_ ?_ ?_ ?_
  · rw [hstrip]
    decide
  · rw [hstrip]
    decide
  · rw [hstrip]
    decide
  · refine cleanup_eval_err rfl ?_
    show coerceFold ["曝光", "观看", "点赞", "评论", "收藏", "分享", "涨粉", "CTR"] _ =
      .error "TypeError"
    rw [coerceFold_skip (fillFold_absent_getCol needed_cols (by decide) (by decide))
      (map_coerce0_replicate _)]
    refine coerceFold_step_err ?_
    rw [fillFold_getCol_hasCol needed_cols (by decide)]
    decide

end XhsAnalyst
namespace XhsAnalyst

set_option maxRecDepth 8000

theorem cleanup_engagement_full {dfStd out : DF} {p p2 : String} {fs : List String}
    (h : cleanup dfStd p = .ok (out, p2, fs)) :
    ∃ lk cm fv sh, getCol out "点赞" = .ok lk ∧ getCol out "评论" = .ok cm ∧
      getCol out "收藏" = .ok fv ∧ getCol out "分享" = .ok sh ∧
      hasCol out "互动总量" = true ∧
      (∀ vs, ("互动总量", vs) ∈ out →
        vs = List.zipWith addVal
          (List.zipWith addVal (List.zipWith addVal lk cm) fv) sh) ∧
      (∀ (vs : List Value) (j : ℕ) (a b c e2 : ℚ), ("互动总量", vs) ∈ out →
        lk.get? j = some (.num a) → cm.get? j = some (.num b) →
        fv.get? j = some (.num c) → sh.get? j = some (.num e2) →
        vs.get? j = some (.num (a + b + c + e2))) := by
  rcases cleanup_out_engagement h with ⟨d2, lk, cm, fv, sh, hlk, hcm, hfv, hsh, rfl⟩
  refine ⟨lk, cm, fv, sh, ?_, ?_, ?_, ?_, ?_, ?_, ?_⟩
  · rw [getCol_setCol_ne (by decide) d2 _]; exact hlk
  · rw [getCol_setCol_ne (by decide) d2 _]; exact hcm
  · rw [getCol_setCol_ne (by decide) d2 _]; exact hfv
  · rw [getCol_setCol_ne (by decide) d2 _]; exact hsh
  · exact hasCol_setCol_self _ _ _
  · intro vs hvs
    exact mem_setCol_self hvs
  · intro vs j a b c e2 hvs hja hjb hjc hje
    have hz := mem_setCol_self hvs
    have h1 : (List.zipWith addVal lk cm).get? j = some (Value.num (a + b)) :=
      get?_zipWith_some hja hjb
    have h2 : (List.zipWith addVal (List.zipWith addVal lk cm) fv).get? j =
        some (Value.num (a + b + c)) := get?_zipWith_some h1 hjc
    have h3 : (List.zipWith addVal
        (List.zipWith addVal (List.zipWith addVal lk cm) fv) sh).get? j =
        some (Value.num (a + b + c + e2)) := get?_zipWith_some h2 hje
    rw [hz]
    exact h3

theorem cleanup_mem_preserve {dfStd out : DF} {p p2 : String} {fs : List String}
    {n : String} {vs : List Value} (h : cleanup dfStd p = .ok (out, p2, fs))
    (hin : (n, vs) ∈ dfStd) (hn : n ∉ needed_cols) (hne : n ≠ "互动总量") :
    (n, vs) ∈ out := by
  rcases cleanup_inv h with ⟨-, -, d1, d2, h1, h2, h3⟩
  have hfm : (n, vs) ∈ fillFold needed_cols dfStd := fillFold_mem_preserve _ hin
  have hcm : (n, vs) ∈ d1 :=
    coerceFold_mem_preserve (fun hc => hn (List.mem_of_mem_drop hc)) hfm h1
  have hctr : n ≠ "CTR" := fun he => hn (he ▸ (by decide : "CTR" ∈ needed_cols))
  have hdm : (n, vs) ∈ d2 := ctrStep_mem hctr h2 hcm
  exact engagementStep_mem hne h3 hdm

theorem cleanup_hasCol_eng {dfStd out : DF} {p p2 : String} {fs : List String}
    (h : cleanup dfStd p = .ok (out, p2, fs)) : hasCol out "互动总量" = true := by
  rcases cleanup_out_engagement h with ⟨d2, lk, cm, fv, sh, -, -, -, -, rfl⟩
  exact hasCol_setCol_self _ _ _

/-- C3: for every run of standardize_data that matches a known platform,
the output has the four engagement source columns and a 互动总量 column
whose values are exactly the elementwise sum 点赞 + 评论 + 收藏 + 分享 of
the coerced columns; the 互动总量 column is always written by the
normalizer (every column of that name in the output holds the computed
sum, overwriting any pre-existing values), and rowwise over numeric cells
it is the rational sum a + b + c + e2. -/
theorem C3_engagement_total :
    ∀ (df0 out : DF) (p : String) (fs : List String),
      standardize_data df0 = .ok (out, p, fs) → p ≠ "Unknown" →
      ∃ lk cm fv sh, getCol out "点赞" = .ok lk ∧ getCol out "评论" = .ok cm ∧
        getCol out "收藏" = .ok fv ∧ getCol out "分享" = .ok sh ∧
        hasCol out "互动总量" = true ∧
        (∀ vs, ("互动总量", vs) ∈ out →
          vs = List.zipWith addVal
            (List.zipWith addVal (List.zipWith addVal lk cm) fv) sh) ∧
        (∀ (vs : List Value) (j : ℕ) (a b c e2 : ℚ), ("互动总量", vs) ∈ out →
          lk.get? j = some (.num a) → cm.get? j = some (.num b) →
          fv.get? j = some (.num c) → sh.get? j = some (.num e2) →
          vs.get? j = some (.num (a + b + c + e2))) := by
  intro df0 out p fs h hp
  rcases standardize_ok_branches h hp with ⟨-, -, hcl⟩ | ⟨-, -, -, dfStd, -, hcl⟩
  · exact cleanup_engagement_full hcl
  · exact cleanup_engagement_full hcl

/-- C10: on every run matched to a known platform, the output contains all
nine canonical fields plus 互动总量, and every column of the stripped
input whose name is neither a rename-table key of the detected platform,
nor a canonical field, nor 互动总量, is retained in the output with its
values unchanged. -/
theorem C10_untouched_columns :
    ∀ (df0 out : DF) (p : String) (fs : List String),
      standardize_data df0 = .ok (out, p, fs) → p ≠ "Unknown" →
      (∀ c ∈ needed_cols, hasCol out c = true) ∧
      hasCol out "互动总量" = true ∧
      (∀ (n : String) (vs : List Value), (n, vs) ∈ stripDF df0 →
        n ∉ needed_cols → n ≠ "互动总量" →
        (p = xhs_label → n ∉ rename_map_xhs.map Prod.fst → (n, vs) ∈ out) ∧
        (p = wc_label → n ∉ rename_map_wc.map Prod.fst → (n, vs) ∈ out)) := by
  intro df0 out p fs h hp
  rcases standardize_ok_branches h hp with ⟨hx, hpx, hcl⟩ |
    ⟨hx, hw, hpw, dfStd, hm, hcl⟩
  · refine ⟨cleanup_hasCol hcl, cleanup_hasCol_eng hcl, ?_⟩
    intro n vs hmem hn hne
    constructor
    · intro _ hkeys
      exact cleanup_mem_preserve hcl (mem_renameDF hmem _ hkeys) hn hne
    · intro hpw2 _
      exact absurd (hpx ▸ hpw2) (by decide)
  · refine ⟨cleanup_hasCol hcl, cleanup_hasCol_eng hcl, ?_⟩
    intro n vs hmem hn hne
    constructor
    · intro hpx2 _
      exact absurd (hpw ▸ hpx2) (by decide)
    · intro _ hkeys
      have h1 : (n, vs) ∈ renameDF rename_map_wc (stripDF df0) :=
        mem_renameDF hmem _ hkeys
      have hsh : n ≠ "分享" := fun he => hn (he ▸ (by decide : "分享" ∈ needed_cols))
      have h2 : (n, vs) ∈ dfStd := by
        rcases mergeShares_inv hm with rfl | ⟨s1, s2, -, -, rfl⟩
        · exact h1
        · exact mem_setCol_ne h1 _ hsh _
      exact cleanup_mem_preserve hcl h2 hn hne

end XhsAnalyst
namespace XhsAnalyst

set_option maxRecDepth 8000

/-! ### Concrete runs of the pipeline, used by witness theorems -/

theorem run_dfXhsEx : standardize_data dfXhsEx = .ok (outXhsEx, xhs_label, needed_cols) := by
  have hstrip : stripDF dfXhsEx = dfXhsEx := by with_unfolding_all decide
  have hsig : isXHSsig (colNames (stripDF dfXhsEx)) = true := by
    rw [hstrip]; decide
  refine standardize_xhs_eval hsig ?_
  have hren : renameDF rename_map_xhs (stripDF dfXhsEx) =
      [("标题", [.str "t"]), ("点赞", [.num 2]), ("评论", [.num 3]),
        ("收藏", [.num 4]), ("分享", [.num 5])] := by
    rw [hstrip]; decide
  rw [hren]
  have hfill : fillFold needed_cols
      [("标题", [.str "t"]), ("点赞", [.num 2]), ("评论", [.num 3]),
        ("收藏", [.num 4]), ("分享", [.num 5])] =
      [("标题", [.str "t"]), ("点赞", [.num 2]), ("评论", [.num 3]),
        ("收藏", [.num 4]), ("分享", [.num 5]), ("曝光", [.num 0]), ("观看", [.num 0]),
        ("涨粉", [.num 0]), ("CTR", [.num 0])] := by decide
  have hcoerce : coerceFold (needed_cols.drop 1)
      (fillFold needed_cols
        [("标题", [.str "t"]), ("点赞", [.num 2]), ("评论", [.num 3]),
          ("收藏", [.num 4]), ("分享", [.num 5])]) =
      .ok [("标题", [.str "t"]), ("点赞", [.num 2]), ("评论", [.num 3]),
        ("收藏", [.num 4]), ("分享", [.num 5]), ("曝光", [.num 0]), ("观看", [.num 0]),
        ("涨粉", [.num 0]), ("CTR", [.num 0])] := by
    rw [hfill]
    show coerceFold ["曝光", "观看", "点赞", "评论", "收藏", "分享", "涨粉", "CTR"] _ = _
    rw [@coerceFold_skip _ _ _ [.num 0] (by decide) (by decide),
      @coerceFold_skip _ _ _ [.num 0] (by decide) (by decide),
      @coerceFold_skip _ _ _ [.num 2] (by decide) (by decide),
      @coerceFold_skip _ _ _ [.num 3] (by decide) (by decide),
      @coerceFold_skip _ _ _ [.num 4] (by decide) (by decide),
      @coerceFold_skip _ _ _ [.num 5] (by decide) (by decide),
      @coerceFold_skip _ _ _ [.num 0] (by decide) (by decide),
      @coerceFold_skip _ _ _ [.num 0] (by decide) (by decide)]
    rfl
  have hctr : ctrStep [("标题", [.str "t"]), ("点赞", [.num 2]), ("评论", [.num 3]),
      ("收藏", [.num 4]), ("分享", [.num 5]), ("曝光", [.num 0]), ("观看", [.num 0]),
      ("涨粉", [.num 0]), ("CTR", [.num 0])] =
      .ok [("标题", [.str "t"]), ("点赞", [.num 2]), ("评论", [.num 3]),
        ("收藏", [.num 4]), ("分享", [.num 5]), ("曝光", [.num 0]), ("观看", [.num 0]),
        ("涨粉", [.num 0]), ("CTR", [.num 0])] := by
    rw [@ctrStep_eq _ [.num 0] [.num 0] [.num 0]
      (by decide) (by decide) (by decide)]
    have hB : valPos (sumVal [Value.num 0]) = false := by
      show (decide ((0 : ℚ) < 0 + 0)) = false
      simp
    rw [hB]
    simp
  have heng : engagementStep [("标题", [.str "t"]), ("点赞", [.num 2]), ("评论", [.num 3]),
      ("收藏", [.num 4]), ("分享", [.num 5]), ("曝光", [.num 0]), ("观看", [.num 0]),
      ("涨粉", [.num 0]), ("CTR", [.num 0])] =
      .ok ([("标题", [.str "t"]), ("点赞", [.num 2]), ("评论", [.num 3]),
        ("收藏", [.num 4]), ("分享", [.num 5]), ("曝光", [.num 0]), ("观看", [.num 0]),
        ("涨粉", [.num 0]), ("CTR", [.num 0])] ++
        [("互动总量", [Value.num (2 + 3 + 4 + 5)])]) := by
    rw [@engagementStep_eq _ [.num 2] [.num 3] [.num 4] [.num 5] (by decide) (by decide) (by decide) (by decide)]
    rfl
  have hres := cleanup_eq (p := xhs_label) hcoerce hctr heng
  rw [hres]
  have h14 : (2 + 3 + 4 + 5 : ℚ) = 14 := by norm_num
  rw [h14]
  rfl

theorem run_dfRetainEx :
    standardize_data dfRetainEx = .ok (outRetainEx, xhs_label, needed_cols) := by
  have hstrip : stripDF dfRetainEx = dfRetainEx := by with_unfolding_all decide
  have hsig : isXHSsig (colNames (stripDF dfRetainEx)) = true := by
    rw [hstrip]; decide
  refine standardize_xhs_eval hsig ?_
  have hren : renameDF rename_map_xhs (stripDF dfRetainEx) =
      [("标题", [.str "t"]), ("备注", [.str "x"])] := by
    rw [hstrip]; decide
  rw [hren]
  have hcoerce : coerceFold (needed_cols.drop 1)
      (fillFold needed_cols [("标题", [.str "t"]), ("备注", [.str "x"])]) =
      .ok [("标题", [.str "t"]), ("备注", [.str "x"]), ("曝光", [.num 0]),
        ("观看", [.num 0]), ("点赞", [.num 0]), ("评论", [.num 0]), ("收藏", [.num 0]),
        ("分享", [.num 0]), ("涨粉", [.num 0]), ("CTR", [.num 0])] := by
    rw [show fillFold needed_cols [("标题", [Value.str "t"]), ("备注", [Value.str "x"])] =
      [("标题", [.str "t"]), ("备注", [.str "x"]), ("曝光", [.num 0]),
        ("观看", [.num 0]), ("点赞", [.num 0]), ("评论", [.num 0]), ("收藏", [.num 0]),
        ("分享", [.num 0]), ("涨粉", [.num 0]), ("CTR", [.num 0])] from by decide]
    show coerceFold ["曝光", "观看", "点赞", "评论", "收藏", "分享", "涨粉", "CTR"] _ = _
    rw [@coerceFold_skip _ _ _ [.num 0] (by decide) (by decide),
      @coerceFold_skip _ _ _ [.num 0] (by decide) (by decide),
      @coerceFold_skip _ _ _ [.num 0] (by decide) (by decide),
      @coerceFold_skip _ _ _ [.num 0] (by decide) (by decide),
      @coerceFold_skip _ _ _ [.num 0] (by decide) (by decide),
      @coerceFold_skip _ _ _ [.num 0] (by decide) (by decide),
      @coerceFold_skip _ _ _ [.num 0] (by decide) (by decide),
      @coerceFold_skip _ _ _ [.num 0] (by decide) (by decide)]
    rfl
  have hctr : ctrStep [("标题", [Value.str "t"]), ("备注", [Value.str "x"]),
      ("曝光", [Value.num 0]), ("观看", [Value.num 0]), ("点赞", [Value.num 0]),
      ("评论", [Value.num 0]), ("收藏", [Value.num 0]), ("分享", [Value.num 0]),
      ("涨粉", [Value.num 0]), ("CTR", [Value.num 0])] =
      .ok [("标题", [Value.str "t"]), ("备注", [Value.str "x"]),
        ("曝光", [Value.num 0]), ("观看", [Value.num 0]), ("点赞", [Value.num 0]),
        ("评论", [Value.num 0]), ("收藏", [Value.num 0]), ("分享", [Value.num 0]),
        ("涨粉", [Value.num 0]), ("CTR", [Value.num 0])] := by
    rw [@ctrStep_eq _ [.num 0] [.num 0] [.num 0]
      (by decide) (by decide) (by decide)]
    rw [show valPos (sumVal [Value.num 0]) = false from by
      show (decide ((0 : ℚ) < 0 + 0)) = false
      simp]
    simp
  have heng : engagementStep [("标题", [Value.str "t"]), ("备注", [Value.str "x"]),
      ("曝光", [Value.num 0]), ("观看", [Value.num 0]), ("点赞", [Value.num 0]),
      ("评论", [Value.num 0]), ("收藏", [Value.num 0]), ("分享", [Value.num 0]),
      ("涨粉", [Value.num 0]), ("CTR", [Value.num 0])] =
      .ok ([("标题", [Value.str "t"]), ("备注", [Value.str "x"]),
        ("曝光", [Value.num 0]), ("观看", [Value.num 0]), ("点赞", [Value.num 0]),
        ("评论", [Value.num 0]), ("收藏", [Value.num 0]), ("分享", [Value.num 0]),
        ("涨粉", [Value.num 0]), ("CTR", [Value.num 0])] ++
        [("互动总量", [Value.num (0 + 0 + 0 + 0)])]) := by
    rw [@engagementStep_eq _ [.num 0] [.num 0] [.num 0] [.num 0] (by decide) (by decide) (by decide) (by decide)]
    rfl
  have hres := cleanup_eq (p := xhs_label) hcoerce hctr heng
  rw [hres]
  have h0 : (0 + 0 + 0 + 0 : ℚ) = 0 := by norm_num
  rw [h0]
  rfl

theorem run_dfTitle0Ex :
    standardize_data dfTitle0Ex = .ok (outTitle0Ex, xhs_label, needed_cols) := by
  have hstrip : stripDF dfTitle0Ex = dfTitle0Ex := by with_unfolding_all decide
  have hsig : isXHSsig (colNames (stripDF dfTitle0Ex)) = true := by
    rw [hstrip]
    show isXHSsig ["笔记标题啊"] = true
    decide
  refine standardize_xhs_eval hsig ?_
  have hren : renameDF rename_map_xhs (stripDF dfTitle0Ex) =
      [("笔记标题啊", [.str "x"])] := by
    rw [hstrip]; decide
  rw [hren]
  have hcoerce : coerceFold (needed_cols.drop 1)
      (fillFold needed_cols [("笔记标题啊", [.str "x"])]) =
      .ok [("笔记标题啊", [.str "x"]), ("标题", [.num 0]), ("曝光", [.num 0]),
        ("观看", [.num 0]), ("点赞", [.num 0]), ("评论", [.num 0]), ("收藏", [.num 0]),
        ("分享", [.num 0]), ("涨粉", [.num 0]), ("CTR", [.num 0])] := by
    rw [show fillFold needed_cols [("笔记标题啊", [Value.str "x"])] =
      [("笔记标题啊", [.str "x"]), ("标题", [.num 0]), ("曝光", [.num 0]),
        ("观看", [.num 0]), ("点赞", [.num 0]), ("评论", [.num 0]), ("收藏", [.num 0]),
        ("分享", [.num 0]), ("涨粉", [.num 0]), ("CTR", [.num 0])] from by decide]
    show coerceFold ["曝光", "观看", "点赞", "评论", "收藏", "分享", "涨粉", "CTR"] _ = _
    rw [@coerceFold_skip _ _ _ [.num 0] (by decide) (by decide),
      @coerceFold_skip _ _ _ [.num 0] (by decide) (by decide),
      @coerceFold_skip _ _ _ [.num 0] (by decide) (by decide),
      @coerceFold_skip _ _ _ [.num 0] (by decide) (by decide),
      @coerceFold_skip _ _ _ [.num 0] (by decide) (by decide),
      @coerceFold_skip _ _ _ [.num 0] (by decide) (by decide),
      @coerceFold_skip _ _ _ [.num 0] (by decide) (by decide),
      @coerceFold_skip _ _ _ [.num 0] (by decide) (by decide)]
    rfl
  have hctr : ctrStep [("笔记标题啊", [Value.str "x"]), ("标题", [Value.num 0]),
      ("曝光", [Value.num 0]), ("观看", [Value.num 0]), ("点赞", [Value.num 0]),
      ("评论", [Value.num 0]), ("收藏", [Value.num 0]), ("分享", [Value.num 0]),
      ("涨粉", [Value.num 0]), ("CTR", [Value.num 0])] =
      .ok [("笔记标题啊", [Value.str "x"]), ("标题", [Value.num 0]),
        ("曝光", [Value.num 0]), ("观看", [Value.num 0]), ("点赞", [Value.num 0]),
        ("评论", [Value.num 0]), ("收藏", [Value.num 0]), ("分享", [Value.num 0]),
        ("涨粉", [Value.num 0]), ("CTR", [Value.num 0])] := by
    rw [@ctrStep_eq _ [.num 0] [.num 0] [.num 0]
      (by decide) (by decide) (by decide)]
    rw [show valPos (sumVal [Value.num 0]) = false from by
      show (decide ((0 : ℚ) < 0 + 0)) = false
      simp]
    simp
  have heng : engagementStep [("笔记标题啊", [Value.str "x"]), ("标题", [Value.num 0]),
      ("曝光", [Value.num 0]), ("观看", [Value.num 0]), ("点赞", [Value.num 0]),
      ("评论", [Value.num 0]), ("收藏", [Value.num 0]), ("分享", [Value.num 0]),
      ("涨粉", [Value.num 0]), ("CTR", [Value.num 0])] =
      .ok ([("笔记标题啊", [Value.str "x"]), ("标题", [Value.num 0]),
        ("曝光", [Value.num 0]), ("观看", [Value.num 0]), ("点赞", [Value.num 0]),
        ("评论", [Value.num 0]), ("收藏", [Value.num 0]), ("分享", [Value.num 0]),
        ("涨粉", [Value.num 0]), ("CTR", [Value.num 0])] ++
        [("互动总量", [Value.num (0 + 0 + 0 + 0)])]) := by
    rw [@engagementStep_eq _ [.num 0] [.num 0] [.num 0] [.num 0] (by decide) (by decide) (by decide) (by decide)]
    rfl
  have hres := cleanup_eq (p := xhs_label) hcoerce hctr heng
  rw [hres]
  have h0 : (0 + 0 + 0 + 0 : ℚ) = 0 := by norm_num
  rw [h0]
  rfl

theorem run_dfNegEx :
    standardize_data dfNegEx = .ok (outNegEx, xhs_label, needed_cols) := by
  have hstrip : stripDF dfNegEx = dfNegEx := by with_unfolding_all decide
  have hsig : isXHSsig (colNames (stripDF dfNegEx)) = true := by
    rw [hstrip]; decide
  refine standardize_xhs_eval hsig ?_
  have hren : renameDF rename_map_xhs (stripDF dfNegEx) =
      [("标题", [.str "t"]), ("观看", [.num (-1)])] := by
    rw [hstrip]; decide
  rw [hren]
  have hcoerce : coerceFold (needed_cols.drop 1)
      (fillFold needed_cols [("标题", [.str "t"]), ("观看", [.num (-1)])]) =
      .ok [("标题", [.str "t"]), ("观看", [.num (-1)]), ("曝光", [.num 0]),
        ("点赞", [.num 0]), ("评论", [.num 0]), ("收藏", [.num 0]), ("分享", [.num 0]),
        ("涨粉", [.num 0]), ("CTR", [.num 0])] := by
    rw [show fillFold needed_cols [("标题", [Value.str "t"]), ("观看", [Value.num (-1)])] =
      [("标题", [.str "t"]), ("观看", [.num (-1)]), ("曝光", [.num 0]),
        ("点赞", [.num 0]), ("评论", [.num 0]), ("收藏", [.num 0]), ("分享", [.num 0]),
        ("涨粉", [.num 0]), ("CTR", [.num 0])] from by decide]
    show coerceFold ["曝光", "观看", "点赞", "评论", "收藏", "分享", "涨粉", "CTR"] _ = _
    rw [@coerceFold_skip _ _ _ [.num 0] (by decide) (by decide),
      @coerceFold_skip _ _ _ [.num (-1)] (by decide) (by decide),
      @coerceFold_skip _ _ _ [.num 0] (by decide) (by decide),
      @coerceFold_skip _ _ _ [.num 0] (by decide) (by decide),
      @coerceFold_skip _ _ _ [.num 0] (by decide) (by decide),
      @coerceFold_skip _ _ _ [.num 0] (by decide) (by decide),
      @coerceFold_skip _ _ _ [.num 0] (by decide) (by decide),
      @coerceFold_skip _ _ _ [.num 0] (by decide) (by decide)]
    rfl
  have hctr : ctrStep [("标题", [Value.str "t"]), ("观看", [Value.num (-1)]),
      ("曝光", [Value.num 0]), ("点赞", [Value.num 0]), ("评论", [Value.num 0]),
      ("收藏", [Value.num 0]), ("分享", [Value.num 0]), ("涨粉", [Value.num 0]),
      ("CTR", [Value.num 0])] =
      .ok [("标题", [Value.str "t"]), ("观看", [Value.num (-1)]),
        ("曝光", [Value.num 0]), ("点赞", [Value.num 0]), ("评论", [Value.num 0]),
        ("收藏", [Value.num 0]), ("分享", [Value.num 0]), ("涨粉", [Value.num 0]),
        ("CTR", [Value.num 0])] := by
    rw [@ctrStep_eq _ [.num 0] [.num 0] [.num (-1)]
      (by decide) (by decide) (by decide)]
    rw [show valPos (sumVal [Value.num 0]) = false from by
      show (decide ((0 : ℚ) < 0 + 0)) = false
      simp]
    simp
  have heng : engagementStep [("标题", [Value.str "t"]), ("观看", [Value.num (-1)]),
      ("曝光", [Value.num 0]), ("点赞", [Value.num 0]), ("评论", [Value.num 0]),
      ("收藏", [Value.num 0]), ("分享", [Value.num 0]), ("涨粉", [Value.num 0]),
      ("CTR", [Value.num 0])] =
      .ok ([("标题", [Value.str "t"]), ("观看", [Value.num (-1)]),
        ("曝光", [Value.num 0]), ("点赞", [Value.num 0]), ("评论", [Value.num 0]),
        ("收藏", [Value.num 0]), ("分享", [Value.num 0]), ("涨粉", [Value.num 0]),
        ("CTR", [Value.num 0])] ++
        [("互动总量", [Value.num (0 + 0 + 0 + 0)])]) := by
    rw [@engagementStep_eq _ [.num 0] [.num 0] [.num 0] [.num 0] (by decide) (by decide) (by decide) (by decide)]
    rfl
  have hres := cleanup_eq (p := xhs_label) hcoerce hctr heng
  rw [hres]
  have h0 : (0 + 0 + 0 + 0 : ℚ) = 0 := by norm_num
  rw [h0]
  rfl

theorem run_cleanup_title :
    cleanup dfTitleStdEx xhs_label = .ok (outTitleStdEx, xhs_label, needed_cols) := by
  have hcoerce : coerceFold (needed_cols.drop 1) (fillFold needed_cols dfTitleStdEx) =
      .ok [("标题", [.str "x"]), ("曝光", [.num 0]), ("观看", [.num 0]),
        ("点赞", [.num 0]), ("评论", [.num 0]), ("收藏", [.num 0]), ("分享", [.num 0]),
        ("涨粉", [.num 0]), ("CTR", [.num 0])] := by
    rw [show fillFold needed_cols dfTitleStdEx =
      [("标题", [.str "x"]), ("曝光", [.num 0]), ("观看", [.num 0]),
        ("点赞", [.num 0]), ("评论", [.num 0]), ("收藏", [.num 0]), ("分享", [.num 0]),
        ("涨粉", [.num 0]), ("CTR", [.num 0])] from by decide]
    show coerceFold ["曝光", "观看", "点赞", "评论", "收藏", "分享", "涨粉", "CTR"] _ = _
    rw [@coerceFold_skip _ _ _ [.num 0] (by decide) (by decide),
      @coerceFold_skip _ _ _ [.num 0] (by decide) (by decide),
      @coerceFold_skip _ _ _ [.num 0] (by decide) (by decide),
      @coerceFold_skip _ _ _ [.num 0] (by decide) (by decide),
      @coerceFold_skip _ _ _ [.num 0] (by decide) (by decide),
      @coerceFold_skip _ _ _ [.num 0] (by decide) (by decide),
      @coerceFold_skip _ _ _ [.num 0] (by decide) (by decide),
      @coerceFold_skip _ _ _ [.num 0] (by decide) (by decide)]
    rfl
  have hctr : ctrStep [("标题", [Value.str "x"]), ("曝光", [Value.num 0]),
      ("观看", [Value.num 0]), ("点赞", [Value.num 0]), ("评论", [Value.num 0]),
      ("收藏", [Value.num 0]), ("分享", [Value.num 0]), ("涨粉", [Value.num 0]),
      ("CTR", [Value.num 0])] =
      .ok [("标题", [Value.str "x"]), ("曝光", [Value.num 0]),
        ("观看", [Value.num 0]), ("点赞", [Value.num 0]), ("评论", [Value.num 0]),
        ("收藏", [Value.num 0]), ("分享", [Value.num 0]), ("涨粉", [Value.num 0]),
        ("CTR", [Value.num 0])] := by
    rw [@ctrStep_eq _ [.num 0] [.num 0] [.num 0]
      (by decide) (by decide) (by decide)]
    rw [show valPos (sumVal [Value.num 0]) = false from by
      show (decide ((0 : ℚ) < 0 + 0)) = false
      simp]
    simp
  have heng : engagementStep [("标题", [Value.str "x"]), ("曝光", [Value.num 0]),
      ("观看", [Value.num 0]), ("点赞", [Value.num 0]), ("评论", [Value.num 0]),
      ("收藏", [Value.num 0]), ("分享", [Value.num 0]), ("涨粉", [Value.num 0]),
      ("CTR", [Value.num 0])] =
      .ok ([("标题", [Value.str "x"]), ("曝光", [Value.num 0]),
        ("观看", [Value.num 0]), ("点赞", [Value.num 0]), ("评论", [Value.num 0]),
        ("收藏", [Value.num 0]), ("分享", [Value.num 0]), ("涨粉", [Value.num 0]),
        ("CTR", [Value.num 0])] ++
        [("互动总量", [Value.num (0 + 0 + 0 + 0)])]) := by
    rw [@engagementStep_eq _ [.num 0] [.num 0] [.num 0] [.num 0] (by decide) (by decide) (by decide) (by decide)]
    rfl
  have hres := cleanup_eq (p := xhs_label) hcoerce hctr heng
  rw [hres]
  have h0 : (0 + 0 + 0 + 0 : ℚ) = 0 := by norm_num
  rw [h0]
  rfl

theorem run_dfShareEx :
    standardize_data dfShareEx = .ok (outShareEx, wc_label, needed_cols) := by
  have hstrip : stripDF dfShareEx = dfShareEx := by with_unfolding_all decide
  have hsig1 : isXHSsig (colNames (stripDF dfShareEx)) = false := by
    rw [hstrip]; decide
  have hsig2 : isWCsig (colNames (stripDF dfShareEx)) = true := by
    rw [hstrip]; decide
  have hren : renameDF rename_map_wc (stripDF dfShareEx) =
      [("标题", [.str "a", .str "b"]), ("分享", [.num 3, .num 5]),
        ("转发聊天和朋友圈", [.num 2, .num 1])] := by
    rw [hstrip]; decide
  have hsum : List.zipWith addVal ([Value.num 3, Value.num 5].map coerce0)
      ([Value.num 2, Value.num 1].map coerce0) = [Value.num 5, Value.num 6] := by
    show [Value.num (3 + 2), Value.num (5 + 1)] = [Value.num 5, Value.num 6]
    norm_num
  have hmerge : mergeShares (stripDF dfShareEx) (renameDF rename_map_wc (stripDF dfShareEx)) =
      .ok [("标题", [.str "a", .str "b"]), ("分享", [.num 5, .num 6]),
        ("转发聊天和朋友圈", [.num 2, .num 1])] := by
    rw [hren, hstrip]
    unfold mergeShares
    rw [if_pos (by decide)]
    rw [show getCol [("标题", [Value.str "a", Value.str "b"]),
        ("分享", [Value.num 3, Value.num 5]),
        ("转发聊天和朋友圈", [Value.num 2, Value.num 1])] "分享" =
      .ok [Value.num 3, Value.num 5] from by decide, okBind]
    rw [show getCol dfShareEx "转发聊天和朋友圈" =
      .ok [Value.num 2, Value.num 1] from by decide, okBind]
    show Except.ok (setCol _ "分享" _) = _
    rw [hsum]
    rw [show setCol [("标题", [Value.str "a", Value.str "b"]),
        ("分享", [Value.num 3, Value.num 5]),
        ("转发聊天和朋友圈", [Value.num 2, Value.num 1])] "分享"
        [Value.num 5, Value.num 6] =
      [("标题", [Value.str "a", Value.str "b"]), ("分享", [Value.num 5, Value.num 6]),
        ("转发聊天和朋友圈", [Value.num 2, Value.num 1])] from by decide]
  refine standardize_wc_eval hsig1 hsig2 hmerge ?_
  have hcoerce : coerceFold (needed_cols.drop 1)
      (fillFold needed_cols [("标题", [.str "a", .str "b"]), ("分享", [.num 5, .num 6]),
        ("转发聊天和朋友圈", [.num 2, .num 1])]) =
      .ok [("标题", [.str "a", .str "b"]), ("分享", [.num 5, .num 6]),
        ("转发聊天和朋友圈", [.num 2, .num 1]), ("曝光", [.num 0, .num 0]),
        ("观看", [.num 0, .num 0]), ("点赞", [.num 0, .num 0]),
        ("评论", [.num 0, .num 0]), ("收藏", [.num 0, .num 0]),
        ("涨粉", [.num 0, .num 0]), ("CTR", [.num 0, .num 0])] := by
    rw [show fillFold needed_cols [("标题", [Value.str "a", Value.str "b"]),
        ("分享", [Value.num 5, Value.num 6]),
        ("转发聊天和朋友圈", [Value.num 2, Value.num 1])] =
      [("标题", [.str "a", .str "b"]), ("分享", [.num 5, .num 6]),
        ("转发聊天和朋友圈", [.num 2, .num 1]), ("曝光", [.num 0, .num 0]),
        ("观看", [.num 0, .num 0]), ("点赞", [.num 0, .num 0]),
        ("评论", [.num 0, .num 0]), ("收藏", [.num 0, .num 0]),
        ("涨粉", [.num 0, .num 0]), ("CTR", [.num 0, .num 0])] from by decide]
    show coerceFold ["曝光", "观看", "点赞", "评论", "收藏", "分享", "涨粉", "CTR"] _ = _
    rw [@coerceFold_skip _ _ _ [.num 0, .num 0] (by decide) (by decide),
      @coerceFold_skip _ _ _ [.num 0, .num 0] (by decide) (by decide),
      @coerceFold_skip _ _ _ [.num 0, .num 0] (by decide) (by decide),
      @coerceFold_skip _ _ _ [.num 0, .num 0] (by decide) (by decide),
      @coerceFold_skip _ _ _ [.num 0, .num 0] (by decide) (by decide),
      @coerceFold_skip _ _ _ [.num 5, .num 6] (by decide) (by decide),
      @coerceFold_skip _ _ _ [.num 0, .num 0] (by decide) (by decide),
      @coerceFold_skip _ _ _ [.num 0, .num 0] (by decide) (by decide)]
    rfl
  have hctr : ctrStep [("标题", [Value.str "a", Value.str "b"]),
      ("分享", [Value.num 5, Value.num 6]),
      ("转发聊天和朋友圈", [Value.num 2, Value.num 1]),
      ("曝光", [Value.num 0, Value.num 0]), ("观看", [Value.num 0, Value.num 0]),
      ("点赞", [Value.num 0, Value.num 0]), ("评论", [Value.num 0, Value.num 0]),
      ("收藏", [Value.num 0, Value.num 0]), ("涨粉", [Value.num 0, Value.num 0]),
      ("CTR", [Value.num 0, Value.num 0])] =
      .ok [("标题", [Value.str "a", Value.str "b"]),
        ("分享", [Value.num 5, Value.num 6]),
        ("转发聊天和朋友圈", [Value.num 2, Value.num 1]),
        ("曝光", [Value.num 0, Value.num 0]), ("观看", [Value.num 0, Value.num 0]),
        ("点赞", [Value.num 0, Value.num 0]), ("评论", [Value.num 0, Value.num 0]),
        ("收藏", [Value.num 0, Value.num 0]), ("涨粉", [Value.num 0, Value.num 0]),
        ("CTR", [Value.num 0, Value.num 0])] := by
    rw [@ctrStep_eq _ [.num 0, .num 0] [.num 0, .num 0] [.num 0, .num 0] (by decide) (by decide) (by decide)]
    rw [show valPos (sumVal [Value.num 0, Value.num 0]) = false from by
      show (decide ((0 : ℚ) < 0 + 0 + 0)) = false
      simp]
    simp
  have heng : engagementStep [("标题", [Value.str "a", Value.str "b"]),
      ("分享", [Value.num 5, Value.num 6]),
      ("转发聊天和朋友圈", [Value.num 2, Value.num 1]),
      ("曝光", [Value.num 0, Value.num 0]), ("观看", [Value.num 0, Value.num 0]),
      ("点赞", [Value.num 0, Value.num 0]), ("评论", [Value.num 0, Value.num 0]),
      ("收藏", [Value.num 0, Value.num 0]), ("涨粉", [Value.num 0, Value.num 0]),
      ("CTR", [Value.num 0, Value.num 0])] =
      .ok ([("标题", [Value.str "a", Value.str "b"]),
        ("分享", [Value.num 5, Value.num 6]),
        ("转发聊天和朋友圈", [Value.num 2, Value.num 1]),
        ("曝光", [Value.num 0, Value.num 0]), ("观看", [Value.num 0, Value.num 0]),
        ("点赞", [Value.num 0, Value.num 0]), ("评论", [Value.num 0, Value.num 0]),
        ("收藏", [Value.num 0, Value.num 0]), ("涨粉", [Value.num 0, Value.num 0]),
        ("CTR", [Value.num 0, Value.num 0])] ++
        [("互动总量", [Value.num (0 + 0 + 0 + 5), Value.num (0 + 0 + 0 + 6)])]) := by
    rw [@engagementStep_eq _ [.num 0, .num 0] [.num 0, .num 0] [.num 0, .num 0] [.num 5, .num 6]
      (by decide) (by decide) (by decide) (by decide)]
    rfl
  have hres := cleanup_eq (p := wc_label) hcoerce hctr heng
  rw [hres]
  have h5 : (0 + 0 + 0 + 5 : ℚ) = 5 := by norm_num
  have h6 : (0 + 0 + 0 + 6 : ℚ) = 6 := by norm_num
  rw [h5, h6]
  rfl

end XhsAnalyst
namespace XhsAnalyst

set_option maxRecDepth 8000

theorem run_dfCtrEx :
    standardize_data dfCtrEx = .ok (outCtrEx, xhs_label, needed_cols) := by
  have hstrip : stripDF dfCtrEx = dfCtrEx := by with_unfolding_all decide
  have hsig : isXHSsig (colNames (stripDF dfCtrEx)) = true := by
    rw [hstrip]; decide
  refine standardize_xhs_eval hsig ?_
  have hren : renameDF rename_map_xhs (stripDF dfCtrEx) =
      [("标题", [.str "a", .str "b"]), ("曝光", [.num 10, .num 0]),
        ("观看", [.num 1, .num 2])] := by
    rw [hstrip]; decide
  rw [hren]
  have hcoerce : coerceFold (needed_cols.drop 1)
      (fillFold needed_cols [("标题", [.str "a", .str "b"]), ("曝光", [.num 10, .num 0]),
        ("观看", [.num 1, .num 2])]) =
      .ok [("标题", [.str "a", .str "b"]), ("曝光", [.num 10, .num 0]),
        ("观看", [.num 1, .num 2]), ("点赞", [.num 0, .num 0]),
        ("评论", [.num 0, .num 0]), ("收藏", [.num 0, .num 0]),
        ("分享", [.num 0, .num 0]), ("涨粉", [.num 0, .num 0]),
        ("CTR", [.num 0, .num 0])] := by
    rw [show fillFold needed_cols [("标题", [Value.str "a", Value.str "b"]),
        ("曝光", [Value.num 10, Value.num 0]), ("观看", [Value.num 1, Value.num 2])] =
      [("标题", [.str "a", .str "b"]), ("曝光", [.num 10, .num 0]),
        ("观看", [.num 1, .num 2]), ("点赞", [.num 0, .num 0]),
        ("评论", [.num 0, .num 0]), ("收藏", [.num 0, .num 0]),
        ("分享", [.num 0, .num 0]), ("涨粉", [.num 0, .num 0]),
        ("CTR", [.num 0, .num 0])] from by decide]
    show coerceFold ["曝光", "观看", "点赞", "评论", "收藏", "分享", "涨粉", "CTR"] _ = _
    rw [@coerceFold_skip _ _ _ [.num 10, .num 0] (by decide) (by decide),
      @coerceFold_skip _ _ _ [.num 1, .num 2] (by decide) (by decide),
      @coerceFold_skip _ _ _ [.num 0, .num 0] (by decide) (by decide),
      @coerceFold_skip _ _ _ [.num 0, .num 0] (by decide) (by decide),
      @coerceFold_skip _ _ _ [.num 0, .num 0] (by decide) (by decide),
      @coerceFold_skip _ _ _ [.num 0, .num 0] (by decide) (by decide),
      @coerceFold_skip _ _ _ [.num 0, .num 0] (by decide) (by decide),
      @coerceFold_skip _ _ _ [.num 0, .num 0] (by decide) (by decide)]
    rfl
  have h1 : valEq0 (sumVal [Value.num 0, Value.num 0]) = true := by
    show ((0 + 0 + 0 : ℚ) == 0) = true
    simp
  have h2 : valPos (sumVal [Value.num 10, Value.num 0]) = true := by
    show (decide ((0 : ℚ) < 0 + 10 + 0)) = true
    rw [decide_eq_true_eq]
    norm_num
  have h3 : valPos (sumVal [Value.num 1, Value.num 2]) = true := by
    show (decide ((0 : ℚ) < 0 + 1 + 2)) = true
    rw [decide_eq_true_eq]
    norm_num
  have h4 : valGt (sumVal [Value.num 10, Value.num 0])
      (sumVal [Value.num 1, Value.num 2]) = true := by
    show (decide ((0 + 1 + 2 : ℚ) < 0 + 10 + 0)) = true
    rw [decide_eq_true_eq]
    norm_num
  have hdiv1 : divVal (Value.num 1) (Value.num 10) = Value.num (1 / 10) := by
    show (if (10 : ℚ) = 0 then (if (0 : ℚ) < 1 then Value.inf
      else if (1 : ℚ) < 0 then Value.ninf else Value.nan)
      else Value.num (1 / 10)) = Value.num (1 / 10)
    rw [if_neg (by norm_num)]
  have hdiv2 : divVal (Value.num 2) (Value.num 0) = Value.inf := by
    show (if (0 : ℚ) = 0 then (if (0 : ℚ) < 2 then Value.inf
      else if (2 : ℚ) < 0 then Value.ninf else Value.nan)
      else Value.num (2 / 0)) = Value.inf
    rw [if_pos rfl, if_pos (by norm_num)]
  have hz : List.zipWith divVal [Value.num 1, Value.num 2]
      [Value.num 10, Value.num 0] = [Value.num (1 / 10), Value.inf] := by
    show [divVal (Value.num 1) (Value.num 10), divVal (Value.num 2) (Value.num 0)] = _
    rw [hdiv1, hdiv2]
  have hctr : ctrStep [("标题", [Value.str "a", Value.str "b"]),
      ("曝光", [Value.num 10, Value.num 0]), ("观看", [Value.num 1, Value.num 2]),
      ("点赞", [Value.num 0, Value.num 0]), ("评论", [Value.num 0, Value.num 0]),
      ("收藏", [Value.num 0, Value.num 0]), ("分享", [Value.num 0, Value.num 0]),
      ("涨粉", [Value.num 0, Value.num 0]), ("CTR", [Value.num 0, Value.num 0])] =
      .ok [("标题", [Value.str "a", Value.str "b"]),
        ("曝光", [Value.num 10, Value.num 0]), ("观看", [Value.num 1, Value.num 2]),
        ("点赞", [Value.num 0, Value.num 0]), ("评论", [Value.num 0, Value.num 0]),
        ("收藏", [Value.num 0, Value.num 0]), ("分享", [Value.num 0, Value.num 0]),
        ("涨粉", [Value.num 0, Value.num 0]),
        ("CTR", [Value.num (1 / 10), Value.inf])] := by
    rw [@ctrStep_eq _ [.num 0, .num 0] [.num 10, .num 0] [.num 1, .num 2] (by decide) (by decide) (by decide)]
    rw [show (valEq0 (sumVal [Value.num 0, Value.num 0])
        && valPos (sumVal [Value.num 10, Value.num 0])
        && valPos (sumVal [Value.num 1, Value.num 2])
        && valGt (sumVal [Value.num 10, Value.num 0])
          (sumVal [Value.num 1, Value.num 2])) = true from by
      rw [h1, h2, h3, h4]
      rfl]
    rw [if_pos rfl]
    rw [hz]
    rfl
  have heng : engagementStep [("标题", [Value.str "a", Value.str "b"]),
      ("曝光", [Value.num 10, Value.num 0]), ("观看", [Value.num 1, Value.num 2]),
      ("点赞", [Value.num 0, Value.num 0]), ("评论", [Value.num 0, Value.num 0]),
      ("收藏", [Value.num 0, Value.num 0]), ("分享", [Value.num 0, Value.num 0]),
      ("涨粉", [Value.num 0, Value.num 0]),
      ("CTR", [Value.num (1 / 10), Value.inf])] =
      .ok ([("标题", [Value.str "a", Value.str "b"]),
        ("曝光", [Value.num 10, Value.num 0]), ("观看", [Value.num 1, Value.num 2]),
        ("点赞", [Value.num 0, Value.num 0]), ("评论", [Value.num 0, Value.num 0]),
        ("收藏", [Value.num 0, Value.num 0]), ("分享", [Value.num 0, Value.num 0]),
        ("涨粉", [Value.num 0, Value.num 0]),
        ("CTR", [Value.num (1 / 10), Value.inf])] ++
        [("互动总量", [Value.num (0 + 0 + 0 + 0), Value.num (0 + 0 + 0 + 0)])]) := by
    rw [@engagementStep_eq _ [.num 0, .num 0] [.num 0, .num 0] [.num 0, .num 0] [.num 0, .num 0]
      (by decide) (by decide) (by decide) (by decide)]
    rfl
  have hres := cleanup_eq (p := xhs_label) hcoerce hctr heng
  rw [hres]
  have h0 : (0 + 0 + 0 + 0 : ℚ) = 0 := by norm_num
  rw [h0]
  rfl

end XhsAnalyst
namespace XhsAnalyst

set_option maxRecDepth 8000

/-! ### Further helpers shared by the remaining claims -/

theorem cleanup_getCol_present {dfStd out : DF} {p p2 : String} {fs : List String}
    {c : String} {vs : List Value} (h : cleanup dfStd p = .ok (out, p2, fs))
    (hc : c ∈ needed_cols.drop 1) (hctr : c ≠ "CTR")
    (hvs : getCol dfStd c = .ok vs) :
    getCol out c = .ok (vs.map coerce0) := by
  rcases cleanup_inv h with ⟨-, -, d1, d2, h1, h2, h3⟩
  have hfill : getCol (fillFold needed_cols dfStd) c = .ok vs := by
    rw [fillFold_getCol_hasCol _ (getCol_ok_hasCol hvs)]
    exact hvs
  rcases coerceFold_getCol_mem hc h1 with ⟨ws, hws1, hws2⟩
  rw [hfill] at hws1
  cases hws1
  have hd2 : getCol d2 c = .ok (vs.map coerce0) := by
    rw [ctrStep_getCol_ne hctr h2]
    exact hws2
  rcases engagementStep_inv h3 with ⟨lk, cm, fv, sh, -, -, -, -, rfl⟩
  rw [getCol_setCol_ne (needed_ne_eng c (List.mem_of_mem_drop hc)) d2 _]
  exact hd2

theorem coerceFold_titleEx :
    coerceFold (needed_cols.drop 1) (fillFold needed_cols dfTitleStdEx) =
      .ok dTitleFilledEx := by
  rw [show fillFold needed_cols dfTitleStdEx =
    [("标题", [.str "x"]), ("曝光", [.num 0]), ("观看", [.num 0]),
      ("点赞", [.num 0]), ("评论", [.num 0]), ("收藏", [.num 0]), ("分享", [.num 0]),
      ("涨粉", [.num 0]), ("CTR", [.num 0])] from by decide]
  show coerceFold ["曝光", "观看", "点赞", "评论", "收藏", "分享", "涨粉", "CTR"] _ = _
  rw [@coerceFold_skip _ _ _ [.num 0] (by decide) (by decide),
    @coerceFold_skip _ _ _ [.num 0] (by decide) (by decide),
    @coerceFold_skip _ _ _ [.num 0] (by decide) (by decide),
    @coerceFold_skip _ _ _ [.num 0] (by decide) (by decide),
    @coerceFold_skip _ _ _ [.num 0] (by decide) (by decide),
    @coerceFold_skip _ _ _ [.num 0] (by decide) (by decide),
    @coerceFold_skip _ _ _ [.num 0] (by decide) (by decide),
    @coerceFold_skip _ _ _ [.num 0] (by decide) (by decide)]
  rfl

/-- C2 (amended): the CTR fallback of lines 87-91, as run by the unified
cleanup after coercion: the CTR column is rewritten iff sum(CTR) == 0,
sum(曝光) > 0, sum(观看) > 0 and sum(曝光) > sum(观看); when it is
rewritten, every row's CTR becomes that row's 观看 divided by that row's
曝光 under float semantics, so a row whose 曝光 is 0 receives inf, -inf or
NaN — not 0, contrary to the claim; when the guard fails every CTR value
is left unchanged. -/
theorem C2_ctr_fallback :
    ∀ (dfStd d1 out : DF) (p p2 : String) (fs : List String)
      (ctr imp vw : List Value),
      cleanup dfStd p = .ok (out, p2, fs) →
      coerceFold (needed_cols.drop 1) (fillFold needed_cols dfStd) = .ok d1 →
      getCol d1 "CTR" = .ok ctr → getCol d1 "曝光" = .ok imp →
      getCol d1 "观看" = .ok vw →
      ∃ d2, ctrStep d1 = .ok d2 ∧ engagementStep d2 = .ok out ∧
        ((valEq0 (sumVal ctr) && valPos (sumVal imp) && valPos (sumVal vw)
            && valGt (sumVal imp) (sumVal vw)) = true →
          d2 = setCol d1 "CTR" (List.zipWith divVal vw imp) ∧
          ∀ (j : ℕ) (a b : ℚ), vw.get? j = some (.num a) →
            imp.get? j = some (.num b) →
            (List.zipWith divVal vw imp).get? j = some
              (if b = 0 then
                (if 0 < a then Value.inf else if a < 0 then Value.ninf else Value.nan)
              else Value.num (a / b))) ∧
        ((valEq0 (sumVal ctr) && valPos (sumVal imp) && valPos (sumVal vw)
            && valGt (sumVal imp) (sumVal vw)) = false → d2 = d1) := by
  intro dfStd d1 out p p2 fs ctr imp vw hcl hco hc hi hv
  rcases cleanup_inv hcl with ⟨-, -, d1', d2, h1, h2, h3⟩
  rw [hco] at h1
  obtain rfl := Except.ok.inj h1
  refine ⟨d2, h2, h3, ?_, ?_⟩
  · intro hg
    have he := ctrStep_eq hc hi hv
    rw [h2, if_pos hg] at he
    refine ⟨Except.ok.inj he, ?_⟩
    intro j a b hja hjb
    rw [get?_zipWith_some hja hjb]
    rfl
  · intro hg
    have he := ctrStep_eq hc hi hv
    rw [h2, if_neg (by simp [hg])] at he
    exact Except.ok.inj he

/-- Witness for C2 at the concrete frame dfTitleStdEx, whose guard fails
(all sums are 0), so CTR is left unchanged. -/
theorem C2_ctr_fallback_witness :
    ∃ d2, ctrStep dTitleFilledEx = .ok d2 ∧
      engagementStep d2 = .ok outTitleStdEx ∧
      ((valEq0 (sumVal [Value.num 0]) && valPos (sumVal [Value.num 0])
          && valPos (sumVal [Value.num 0])
          && valGt (sumVal [Value.num 0]) (sumVal [Value.num 0])) = true →
        d2 = setCol dTitleFilledEx "CTR"
          (List.zipWith divVal [Value.num 0] [Value.num 0]) ∧
        ∀ (j : ℕ) (a b : ℚ), [Value.num 0].get? j = some (.num a) →
          [Value.num 0].get? j = some (.num b) →
          (List.zipWith divVal [Value.num 0] [Value.num 0]).get? j = some
            (if b = 0 then
              (if 0 < a then Value.inf else if a < 0 then Value.ninf else Value.nan)
            else Value.num (a / b))) ∧
      ((valEq0 (sumVal [Value.num 0]) && valPos (sumVal [Value.num 0])
          && valPos (sumVal [Value.num 0])
          && valGt (sumVal [Value.num 0]) (sumVal [Value.num 0])) = false →
        d2 = dTitleFilledEx) :=
  C2_ctr_fallback dfTitleStdEx dTitleFilledEx outTitleStdEx xhs_label xhs_label
    needed_cols [Value.num 0] [Value.num 0] [Value.num 0]
    run_cleanup_title coerceFold_titleEx (by decide) (by decide) (by decide)

/-- Counterexample to C2 as stated: in dfCtrEx the fallback fires and the
second row has 曝光 = 0; that row's CTR becomes inf (the float division
2 / 0), not 0 as the claim asserts. -/
theorem C2_ctr_fallback_cex :
    standardize_data dfCtrEx = .ok (outCtrEx, xhs_label, needed_cols) ∧
    getCol outCtrEx "CTR" = .ok [Value.num (1 / 10), Value.inf] ∧
    Value.inf ≠ Value.num 0 :=
  ⟨run_dfCtrEx, rfl, by decide⟩

/-- C4 (amended): on every run matched to a known platform the output has
all nine canonical columns, and every canonical column other than CTR that
was absent from the mapped frame is back-filled with the number 0 in every
row — including 标题, which receives the number 0 (from the literal
`df_std[col] = 0` on line 81), not the empty string. -/
theorem C4_backfill_defaults :
    ∀ (df0 out : DF) (p : String) (fs : List String),
      standardize_data df0 = .ok (out, p, fs) → p ≠ "Unknown" →
      (∀ c ∈ needed_cols, hasCol out c = true) ∧
      ∃ dfStd, cleanup dfStd p = .ok (out, p, fs) ∧
        (∀ c ∈ needed_cols, c ≠ "CTR" → hasCol dfStd c = false →
          getCol out c = .ok (List.replicate (nRows dfStd) (Value.num 0))) := by
  intro df0 out p fs h hp
  rcases standardize_ok_branches h hp with ⟨-, rfl, hcl⟩ | ⟨-, -, rfl, dfStd, -, hcl⟩
  · exact ⟨cleanup_hasCol hcl, _, hcl, fun c hc hctr habs =>
      cleanup_getCol_absent hcl hc hctr habs⟩
  · exact ⟨cleanup_hasCol hcl, dfStd, hcl, fun c hc hctr habs =>
      cleanup_getCol_absent hcl hc hctr habs⟩

/-- Counterexample to C4 as stated: dfTitle0Ex matches the Xiaohongshu
signature by substring without yielding a 标题 column after renaming, and
the back-filled 标题 value is the number 0, not the empty string. -/
theorem C4_backfill_defaults_cex :
    standardize_data dfTitle0Ex = .ok (outTitle0Ex, xhs_label, needed_cols) ∧
    getCol outTitle0Ex "标题" = .ok [Value.num 0] ∧
    Value.num 0 ≠ Value.str "" :=
  ⟨run_dfTitle0Ex, by decide, by decide⟩

/-- Witness for C4 at the concrete frame dfTitle0Ex, which is missing all
nine canonical columns. -/
theorem C4_backfill_defaults_witness :
    (∀ c ∈ needed_cols, hasCol outTitle0Ex c = true) ∧
    ∃ dfStd, cleanup dfStd xhs_label = .ok (outTitle0Ex, xhs_label, needed_cols) ∧
      (∀ c ∈ needed_cols, c ≠ "CTR" → hasCol dfStd c = false →
        getCol outTitle0Ex c = .ok (List.replicate (nRows dfStd) (Value.num 0))) :=
  C4_backfill_defaults dfTitle0Ex outTitle0Ex xhs_label needed_cols
    run_dfTitle0Ex (by decide)

/-- C5: the WeChat Channels share merge: when the raw frame has a
转发聊天和朋友圈 column and the renamed frame a 分享 column, the canonical
分享 column of the output is the elementwise float sum of the two source
columns, each cell coerced independently (unparseable cells to 0), and on
numeric cells the sum is the exact rational a + b. -/
theorem C5_shares_merge :
    ∀ (df0 out : DF) (p : String) (fs : List String) (s1 s2 : List Value),
      isXHSsig (colNames (stripDF df0)) = false →
      isWCsig (colNames (stripDF df0)) = true →
      getCol (renameDF rename_map_wc (stripDF df0)) "分享" = .ok s1 →
      getCol (stripDF df0) "转发聊天和朋友圈" = .ok s2 →
      standardize_data df0 = .ok (out, p, fs) →
      p = wc_label ∧
      getCol out "分享" = .ok
        ((List.zipWith addVal (s1.map coerce0) (s2.map coerce0)).map coerce0) ∧
      (∀ (j : ℕ) (a b : ℚ), (s1.map coerce0).get? j = some (.num a) →
        (s2.map coerce0).get? j = some (.num b) →
        (List.zipWith addVal (s1.map coerce0) (s2.map coerce0)).get? j =
          some (.num (a + b))) := by
  intro df0 out p fs s1 s2 h1 h2 hs1 hs2 h
  rw [standardize_wc h1 h2] at h
  have hm : mergeShares (stripDF df0) (renameDF rename_map_wc (stripDF df0)) =
      .ok (setCol (renameDF rename_map_wc (stripDF df0)) "分享"
        (List.zipWith addVal (s1.map coerce0) (s2.map coerce0))) := by
    unfold mergeShares
    rw [if_pos (by rw [getCol_ok_hasCol hs2, getCol_ok_hasCol hs1]; rfl)]
    rw [hs1, okBind, hs2, okBind]
    rfl
  rw [hm, okBindE] at h
  refine ⟨(cleanup_inv h).1, ?_, ?_⟩
  · exact cleanup_getCol_present h (by decide) (by decide)
      (getCol_setCol_self hs1 _)
  · intro j a b hja hjb
    rw [get?_zipWith_some hja hjb]
    rfl

/-- Witness for C5 at the concrete frame dfShareEx: shares [3,5] merged
with forwarded [2,1] yield the canonical 分享 column [5,6]. -/
theorem C5_shares_merge_witness :
    getCol outShareEx "分享" = .ok [Value.num 5, Value.num 6] := by
  have h := C5_shares_merge dfShareEx outShareEx wc_label needed_cols
    [Value.num 3, Value.num 5] [Value.num 2, Value.num 1]
    (by with_unfolding_all decide) (by with_unfolding_all decide)
    (by with_unfolding_all decide) (by with_unfolding_all decide) run_dfShareEx
  have h2 := h.2.1
  rw [show List.zipWith addVal ([Value.num 3, Value.num 5].map coerce0)
      ([Value.num 2, Value.num 1].map coerce0) = [Value.num 5, Value.num 6] from by
    show [Value.num (3 + 2), Value.num (5 + 1)] = _
    norm_num] at h2
  rw [show ([Value.num 5, Value.num 6].map coerce0) = [Value.num 5, Value.num 6]
    from by decide] at h2
  exact h2

/-- C7 (amended): per-cell coercion with pd.to_numeric(...).fillna(0):
every cell becomes a number or one of the infinities, never an error; an
unparseable string becomes 0; and on every run matched to a known platform
the coercion stage rewrites each of the eight numeric canonical columns to
the cell-wise coercion of its previous contents, preserving the column
list and each column's length, so no cell, row or column is ever dropped.
(Coerced values need not be non-negative: a negative source number passes
through unchanged.) -/
theorem C7_coercion :
    (∀ v : Value, (∃ q, coerce0 v = .num q) ∨ coerce0 v = .inf ∨
      coerce0 v = .ninf) ∧
    (∀ s : String, parseNum s = none → coerce0 (.str s) = .num 0) ∧
    (∀ (df0 out : DF) (p : String) (fs : List String),
      standardize_data df0 = .ok (out, p, fs) → p ≠ "Unknown" →
      ∃ dfStd d1, cleanup dfStd p = .ok (out, p, fs) ∧
        coerceFold (needed_cols.drop 1) (fillFold needed_cols dfStd) = .ok d1 ∧
        colNames d1 = colNames (fillFold needed_cols dfStd) ∧
        (∀ c ∈ needed_cols.drop 1,
          ∃ vs, getCol (fillFold needed_cols dfStd) c = .ok vs ∧
            getCol d1 c = .ok (vs.map coerce0) ∧
            (vs.map coerce0).length = vs.length)) := by
  refine ⟨?_, ?_, ?_⟩
  · intro v
    cases v with
    | num q => exact Or.inl ⟨q, rfl⟩
    | str s =>
      cases hp : parseNum s with
      | none =>
        refine Or.inl ⟨0, ?_⟩
        show fillna0 (toNumericVal (Value.str s)) = Value.num 0
        rw [show toNumericVal (Value.str s) = Value.nan from by
          simp only [toNumericVal]
          rw [hp]]
        rfl
      | some q =>
        refine Or.inl ⟨q, ?_⟩
        show fillna0 (toNumericVal (Value.str s)) = Value.num q
        rw [show toNumericVal (Value.str s) = Value.num q from by
          simp only [toNumericVal]
          rw [hp]]
        rfl
    | nan => exact Or.inl ⟨0, rfl⟩
    | inf => exact Or.inr (Or.inl rfl)
    | ninf => exact Or.inr (Or.inr rfl)
  · intro s hp
    show fillna0 (toNumericVal (Value.str s)) = Value.num 0
    rw [show toNumericVal (Value.str s) = Value.nan from by
      simp only [toNumericVal]
      rw [hp]]
    rfl
  · intro df0 out p fs h hpne
    rcases standardize_ok_branches h hpne with ⟨-, rfl, hcl⟩ |
      ⟨-, -, rfl, dfStd, -, hcl⟩
    · rcases cleanup_inv hcl with ⟨-, -, d1, d2, h1, h2, h3⟩
      refine ⟨_, d1, hcl, h1, coerceFold_colNames h1, ?_⟩
      intro c hc
      rcases coerceFold_getCol_mem hc h1 with ⟨vs, hv1, hv2⟩
      exact ⟨vs, hv1, hv2, List.length_map _ _⟩
    · rcases cleanup_inv hcl with ⟨-, -, d1, d2, h1, h2, h3⟩
      refine ⟨dfStd, d1, hcl, h1, coerceFold_colNames h1, ?_⟩
      intro c hc
      rcases coerceFold_getCol_mem hc h1 with ⟨vs, hv1, hv2⟩
      exact ⟨vs, hv1, hv2, List.length_map _ _⟩

/-- Counterexample to C7 as stated: a negative 观看 cell (-1) survives
coercion unchanged, so coerced values are not non-negative. -/
theorem C7_coercion_cex :
    standardize_data dfNegEx = .ok (outNegEx, xhs_label, needed_cols) ∧
    getCol outNegEx "观看" = .ok [Value.num (-1)] ∧ (-1 : ℚ) < 0 :=
  ⟨run_dfNegEx, rfl, by norm_num⟩

/-- Witness for C7: the unparseable cell "N/A" coerces to the number 0. -/
theorem C7_coercion_witness : coerce0 (Value.str "N/A") = Value.num 0 :=
  C7_coercion.2.1 "N/A" (by with_unfolding_all decide)

/-- Witness for C3 at the concrete run on dfXhsEx. -/
theorem C3_engagement_total_witness :
    ∃ lk cm fv sh, getCol outXhsEx "点赞" = .ok lk ∧
      getCol outXhsEx "评论" = .ok cm ∧
      getCol outXhsEx "收藏" = .ok fv ∧ getCol outXhsEx "分享" = .ok sh ∧
      hasCol outXhsEx "互动总量" = true ∧
      (∀ vs, ("互动总量", vs) ∈ outXhsEx →
        vs = List.zipWith addVal
          (List.zipWith addVal (List.zipWith addVal lk cm) fv) sh) ∧
      (∀ (vs : List Value) (j : ℕ) (a b c e2 : ℚ), ("互动总量", vs) ∈ outXhsEx →
        lk.get? j = some (.num a) → cm.get? j = some (.num b) →
        fv.get? j = some (.num c) → sh.get? j = some (.num e2) →
        vs.get? j = some (.num (a + b + c + e2))) :=
  C3_engagement_total dfXhsEx outXhsEx xhs_label needed_cols
    run_dfXhsEx (by decide)

/-- Witness for C10 at the concrete run on dfRetainEx, whose unrecognized
备注 column is retained in the output. -/
theorem C10_untouched_columns_witness :
    (∀ c ∈ needed_cols, hasCol outRetainEx c = true) ∧
    hasCol outRetainEx "互动总量" = true ∧
    (∀ (n : String) (vs : List Value), (n, vs) ∈ stripDF dfRetainEx →
      n ∉ needed_cols → n ≠ "互动总量" →
      (xhs_label = xhs_label → n ∉ rename_map_xhs.map Prod.fst →
        (n, vs) ∈ outRetainEx) ∧
      (xhs_label = wc_label → n ∉ rename_map_wc.map Prod.fst →
        (n, vs) ∈ outRetainEx)) :=
  C10_untouched_columns dfRetainEx outRetainEx xhs_label needed_cols
    run_dfRetainEx (by decide)

end XhsAnalyst
namespace XhsAnalyst

set_option maxRecDepth 8000

/-! ### Duplicate-column lemmas for the synonym-collision claims -/

theorem getCol_dup {d : DF} {c : String}
    (h : 2 ≤ (d.filter (fun e => e.1 == c)).length) :
    getCol d c = .error "TypeError" := by
  unfold getCol
  rcases hf : d.filter (fun e => e.1 == c) with _ | ⟨e, _ | ⟨f, t2⟩⟩
  · rw [hf] at h
    simp at h
  · rw [hf] at h
    simp at h
  · rw [hf]

theorem hasCol_of_dup {d : DF} {c : String}
    (h : 2 ≤ (d.filter (fun e => e.1 == c)).length) : hasCol d c = true := by
  rw [hasCol_iff_filter_ne_nil]
  intro he
  rw [he] at h
  simp at h

theorem fillFold_filter_hasCol {d : DF} {n : String} (L : List String)
    (h : hasCol d n = true) :
    (fillFold L d).filter (fun e => e.1 == n) = d.filter (fun e => e.1 == n) := by
  induction L generalizing d with
  | nil => rfl
  | cons c L ih =>
    rw [fillFold_cons]
    by_cases hc : hasCol d c = true
    · rw [if_pos hc]
      exact ih h
    · rw [if_neg hc]
      have hne : n ≠ c := fun he => by
        rw [he] at h
        rw [h] at hc
        exact hc rfl
      rw [ih (hasCol_setCol_of h c _), filter_setCol_ne hne]

theorem coerceFold_err_of_dup {L : List String} {d : DF} {c : String}
    (hc : c ∈ L) (hdup : 2 ≤ (d.filter (fun e => e.1 == c)).length)
    (hall : ∀ a ∈ L, hasCol d a = true) :
    coerceFold L d = .error "TypeError" := by
  induction L generalizing d with
  | nil => cases hc
  | cons b L ih =>
    rw [coerceFold_cons]
    by_cases hcb : c = b
    · subst hcb
      rw [getCol_dup hdup]
    · have hcL : c ∈ L := (List.mem_cons.mp hc).resolve_left hcb
      rcases hasCol_true_getCol (hall b (by simp)) with ⟨vs, hvs⟩ | hvs
      · rw [hvs]
        refine ih hcL ?_ ?_
        · rw [filter_setCol_ne hcb]
          exact hdup
        · intro a ha
          exact hasCol_setCol_of (hall a (by simp [ha])) b _
      · rw [hvs]

theorem cleanup_dup_err {dfStd : DF} {c : String} (p : String)
    (hc : c ∈ needed_cols.drop 1)
    (hdup : 2 ≤ (dfStd.filter (fun e => e.1 == c)).length) :
    cleanup dfStd p = .error "TypeError" := by
  refine cleanup_eval_err rfl ?_
  refine coerceFold_err_of_dup hc ?_ ?_
  · rw [fillFold_filter_hasCol needed_cols (hasCol_of_dup hdup)]
    exact hdup
  · intro a ha
    exact fillFold_hasCol_mem needed_cols dfStd (List.mem_of_mem_drop ha)

/-- C8 (amended): DataFrame.rename relabels every column independently:
for every rename table and frame, the renamed frame has the source's
column names mapped entry by entry and the source's values untouched in
place, so synonym columns become duplicate canonical columns — nothing is
overwritten, summed or deduplicated, and no last-applied-mapping-wins
semantics exist.  When the duplicated canonical column is one of the
eight numeric fields, the coercion loop's single-column access then makes
standardize_data raise a TypeError, on either platform branch; when the
duplicated column is 标题, which the coercion loop skips, standardize_data
returns normally and the output keeps both synonym columns' values side
by side. -/
theorem C8_synonym_columns :
    (∀ (m : List (String × String)) (d : DF),
      colNames (renameDF m d) = (colNames d).map (renameWith m) ∧
      (renameDF m d).map Prod.snd = d.map Prod.snd) ∧
    (∀ (df0 : DF) (c : String), isXHSsig (colNames (stripDF df0)) = true →
      c ∈ needed_cols.drop 1 →
      2 ≤ (((renameDF rename_map_xhs (stripDF df0)).filter
        (fun e => e.1 == c)).length) →
      standardize_data df0 = .error "TypeError") ∧
    (∀ (df0 : DF) (c : String), isXHSsig (colNames (stripDF df0)) = false →
      isWCsig (colNames (stripDF df0)) = true →
      c ∈ needed_cols.drop 1 →
      2 ≤ (((renameDF rename_map_wc (stripDF df0)).filter
        (fun e => e.1 == c)).length) →
      standardize_data df0 = .error "TypeError") ∧
    (∀ (t u : List Value),
      renameDF rename_map_wc [("视频描述", t), ("内容", u)] =
        [("标题", t), ("标题", u)] ∧
      ∃ out fs, standardize_data [("视频描述", t), ("内容", u)] =
        .ok (out, wc_label, fs) ∧
        out.filter (fun e => e.1 == "标题") = [("标题", t), ("标题", u)]) := by
  refine ⟨?_, ?_, ?_, ?_⟩
  · intro m d
    constructor
    · show (d.map _).map Prod.fst = (d.map Prod.fst).map (renameWith m)
      rw [List.map_map, List.map_map]
      exact List.map_congr_left (fun e _ => rfl)
    · show (d.map _).map Prod.snd = d.map Prod.snd
      rw [List.map_map]
      exact List.map_congr_left (fun e _ => rfl)
  · intro df0 c hx hc hdup
    rw [standardize_xhs hx]
    exact cleanup_dup_err xhs_label hc hdup
  · intro df0 c hx hw hc hdup
    rw [standardize_wc hx hw]
    by_cases hB : (hasCol (stripDF df0) "转发聊天和朋友圈" &&
        hasCol (renameDF rename_map_wc (stripDF df0)) "分享") = true
    · have hB2 := (Bool.and_eq_true _ _).mp hB
      rcases hasCol_true_getCol hB2.2 with ⟨s1, hs1⟩ | hs1
      · by_cases hcs : c = "分享"
        · subst hcs
          rw [getCol_dup hdup] at hs1
          cases hs1
        · rcases hasCol_true_getCol hB2.1 with ⟨s2, hs2⟩ | hs2
          · have hm : mergeShares (stripDF df0)
                (renameDF rename_map_wc (stripDF df0)) =
                .ok (setCol (renameDF rename_map_wc (stripDF df0)) "分享"
                  (List.zipWith addVal (s1.map coerce0) (s2.map coerce0))) := by
              unfold mergeShares
              rw [if_pos hB, hs1, okBind, hs2, okBind]
              rfl
            rw [hm, okBindE]
            refine cleanup_dup_err wc_label hc ?_
            rw [filter_setCol_ne hcs]
            exact hdup
          · have hm : mergeShares (stripDF df0)
                (renameDF rename_map_wc (stripDF df0)) = .error "TypeError" := by
              unfold mergeShares
              rw [if_pos hB, hs1, okBind, hs2]
              rfl
            rw [hm]
            rfl
      · have hm : mergeShares (stripDF df0)
            (renameDF rename_map_wc (stripDF df0)) = .error "TypeError" := by
          unfold mergeShares
          rw [if_pos hB, hs1]
          rfl
        rw [hm]
        rfl
    · have hm : mergeShares (stripDF df0)
          (renameDF rename_map_wc (stripDF df0)) =
          .ok (renameDF rename_map_wc (stripDF df0)) := by
        unfold mergeShares
        rw [if_neg hB]
        rfl
      rw [hm, okBindE]
      exact cleanup_dup_err wc_label hc hdup
  · intro t u
    have ht1 : "视频描述".trim = "视频描述" := by with_unfolding_all decide
    have ht2 : "内容".trim = "内容" := by with_unfolding_all decide
    have hstrip : stripDF [("视频描述", t), ("内容", u)] =
        [("视频描述", t), ("内容", u)] := by
      show [("视频描述".trim, t), ("内容".trim, u)] = _
      rw [ht1, ht2]
    have hsig1 : isXHSsig (colNames (stripDF [("视频描述", t), ("内容", u)])) =
        false := by
      rw [hstrip]
      show isXHSsig ["视频描述", "内容"] = false
      decide
    have hsig2 : isWCsig (colNames (stripDF [("视频描述", t), ("内容", u)])) =
        true := by
      rw [hstrip]
      show isWCsig ["视频描述", "内容"] = true
      decide
    have hren : renameDF rename_map_wc [("视频描述", t), ("内容", u)] =
        [("标题", t), ("标题", u)] := rfl
    refine ⟨hren, ?_⟩
    have hm : mergeShares (stripDF [("视频描述", t), ("内容", u)])
        (renameDF rename_map_wc (stripDF [("视频描述", t), ("内容", u)])) =
        .ok [("标题", t), ("标题", u)] := by
      rw [hstrip]
      unfold mergeShares
      rw [if_neg (by show ¬ (false && _) = true; simp)]
      rfl
    have hco : coerceFold (needed_cols.drop 1)
        (fillFold needed_cols [("标题", t), ("标题", u)]) =
        .ok (fillFold needed_cols [("标题", t), ("标题", u)]) := by
      show coerceFold ["曝光", "观看", "点赞", "评论", "收藏", "分享", "涨粉", "CTR"] _ = _
      rw [coerceFold_skip (fillFold_absent_getCol needed_cols (by decide) (by rfl))
          (map_coerce0_replicate _),
        coerceFold_skip (fillFold_absent_getCol needed_cols (by decide) (by rfl))
          (map_coerce0_replicate _),
        coerceFold_skip (fillFold_absent_getCol needed_cols (by decide) (by rfl))
          (map_coerce0_replicate _),
        coerceFold_skip (fillFold_absent_getCol needed_cols (by decide) (by rfl))
          (map_coerce0_replicate _),
        coerceFold_skip (fillFold_absent_getCol needed_cols (by decide) (by rfl))
          (map_coerce0_replicate _),
        coerceFold_skip (fillFold_absent_getCol needed_cols (by decide) (by rfl))
          (map_coerce0_replicate _),
        coerceFold_skip (fillFold_absent_getCol needed_cols (by decide) (by rfl))
          (map_coerce0_replicate _),
        coerceFold_skip (fillFold_absent_getCol needed_cols (by decide) (by rfl))
          (map_coerce0_replicate _)]
      rfl
    have hctr : ctrStep (fillFold needed_cols [("标题", t), ("标题", u)]) =
        .ok (fillFold needed_cols [("标题", t), ("标题", u)]) := by
      rw [@ctrStep_eq _
        (List.replicate (nRows [("标题", t), ("标题", u)]) (Value.num 0))
        (List.replicate (nRows [("标题", t), ("标题", u)]) (Value.num 0))
        (List.replicate (nRows [("标题", t), ("标题", u)]) (Value.num 0))
        (fillFold_absent_getCol needed_cols (by decide) (by rfl))
        (fillFold_absent_getCol needed_cols (by decide) (by rfl))
        (fillFold_absent_getCol needed_cols (by decide) (by rfl))]
      rw [sumVal_replicate_zero]
      rw [show valPos (Value.num 0) = false from by
        show (decide ((0 : ℚ) < 0)) = false
        simp]
      simp
    have heng : engagementStep (fillFold needed_cols [("标题", t), ("标题", u)]) =
        .ok (setCol (fillFold needed_cols [("标题", t), ("标题", u)]) "互动总量"
          (List.replicate (nRows [("标题", t), ("标题", u)]) (Value.num 0))) := by
      rw [@engagementStep_eq _
        (List.replicate (nRows [("标题", t), ("标题", u)]) (Value.num 0))
        (List.replicate (nRows [("标题", t), ("标题", u)]) (Value.num 0))
        (List.replicate (nRows [("标题", t), ("标题", u)]) (Value.num 0))
        (List.replicate (nRows [("标题", t), ("标题", u)]) (Value.num 0))
        (fillFold_absent_getCol needed_cols (by decide) (by rfl))
        (fillFold_absent_getCol needed_cols (by decide) (by rfl))
        (fillFold_absent_getCol needed_cols (by decide) (by rfl))
        (fillFold_absent_getCol needed_cols (by decide) (by rfl))]
      rw [zipWith_addVal_zero, zipWith_addVal_zero, zipWith_addVal_zero]
    have hcl := cleanup_eq (p := wc_label) hco hctr heng
    refine ⟨_, _, @standardize_wc_eval _ [("标题", t), ("标题", u)] _
      hsig1 hsig2 hm hcl, ?_⟩
    rw [filter_setCol_ne (by decide)]
    rw [fillFold_filter_hasCol needed_cols (by rfl)]
    rfl

/-- Witness for C8 at concrete frames: a numeric-synonym collision
(播放量 and 浏览次数, both mapping to 观看) raises a TypeError, while a
title-synonym collision (视频描述 and 内容, both mapping to 标题) returns
normally with both title columns kept. -/
theorem C8_synonym_columns_witness :
    standardize_data [("视频描述", [Value.str "a"]), ("播放量", [Value.num 1]),
      ("浏览次数", [Value.num 2])] = .error "TypeError" ∧
    (∃ out fs, standardize_data [("视频描述", [Value.str "p"]),
        ("内容", [Value.str "q"])] = .ok (out, wc_label, fs) ∧
      out.filter (fun e => e.1 == "标题") =
        [("标题", [Value.str "p"]), ("标题", [Value.str "q"])]) :=
  ⟨C8_synonym_columns.2.2.1 [("视频描述", [Value.str "a"]),
      ("播放量", [Value.num 1]), ("浏览次数", [Value.num 2])] "观看"
      (by with_unfolding_all decide) (by with_unfolding_all decide)
      (by decide) (by with_unfolding_all decide),
   (C8_synonym_columns.2.2.2 [Value.str "p"] [Value.str "q"]).2⟩

end XhsAnalyst
